import Mathlib

/-!
# Verification of the slack_bot request pipeline

A shallow embedding of the repository's five source files:

* `server/lambda_function.py` — signature verification and routing,
* `server/core_slack.py`      — slash-command and interactive handlers,
* `server/db.py`              — the DynamoDB record-store helpers,
* `server/app.py`             — the Flask prototype's interactive route,
* `build/summary_lambda.py`   — the daily digest formatter.

Python strings become `String`, bytes become `List Nat` (each `< 256`),
machine 32-bit words become `Nat` reduced `% 2^32` at each operation,
Python exceptions become `Except PyErr`, and the DynamoDB table becomes a
`List Entry` with put/query semantics made explicit.  External effects
(store writes, outbound chat calls) are counted in an `Effects` record so
that "no write happened" is a provable statement.
-/

namespace SlackBot

/-- Python exception classes are identified by name only. -/
abbrev PyErr := String

/-! ## Bytes, UTF-8 and hex -/

/-- UTF-8 encoding of a single unicode scalar value, as bytes.
Mirrors `str.encode("utf-8")` per character. -/
def utf8Char (c : Char) : List Nat :=
  let n := c.toNat
  if n < 0x80 then [n]
  else if n < 0x800 then
    [0xC0 + n / 64, 0x80 + n % 64]
  else if n < 0x10000 then
    [0xE0 + n / 4096, 0x80 + (n / 64) % 64, 0x80 + n % 64]
  else
    [0xF0 + n / 262144, 0x80 + (n / 4096) % 64, 0x80 + (n / 64) % 64,
     0x80 + n % 64]

/-- `s.encode("utf-8")`: the UTF-8 bytes of a string. -/
def utf8Bytes (s : String) : List Nat := s.data.flatMap utf8Char

/-- One lowercase hex digit. -/
def hexDigit (n : Nat) : Char :=
  if n < 10 then Char.ofNat (48 + n) else Char.ofNat (87 + n)

/-- Two-digit lowercase hex of a byte, as in `bytes.hex()`. -/
def hexByte (b : Nat) : List Char := [hexDigit (b / 16), hexDigit (b % 16)]

/-- Lowercase hex rendering of a byte string (`hexdigest`). -/
def hexOfBytes (bs : List Nat) : String := ⟨bs.flatMap hexByte⟩

/-! ## SHA-256 (FIPS 180-4), the hash behind `hashlib.sha256`

`hashlib` is the Python standard library, external to the repository;
modelled from the spec: "HMAC-SHA256" (§4.1), i.e. the standard FIPS
180-4 function, on which the spec's reference-implementation clause rests. -/

/-- 32-bit truncation. -/
def w32 (n : Nat) : Nat := n % 4294967296

/-- 32-bit right rotation. -/
def rotr (k n : Nat) : Nat := w32 (n / 2 ^ k + n % 2 ^ k * 2 ^ (32 - k))

/-- 32-bit complement. -/
def not32 (n : Nat) : Nat := 4294967295 - n % 4294967296

/-- The 64 SHA-256 round constants (FIPS 180-4 §4.2.2, in decimal). -/
def shaK : List Nat :=
  [1116352408, 1899447441, 3049323471, 3921009573, 961987163, 1508970993,
   2453635748, 2870763221, 3624381080, 310598401, 607225278, 1426881987,
   1925078388, 2162078206, 2614888103, 3248222580, 3835390401, 4022224774,
   264347078, 604807628, 770255983, 1249150122, 1555081692, 1996064986,
   2554220882, 2821834349, 2952996808, 3210313671, 3336571891, 3584528711,
   113926993, 338241895, 666307205, 773529912, 1294757372, 1396182291,
   1695183700, 1986661051, 2177026350, 2456956037, 2730485921, 2820302411,
   3259730800, 3345764771, 3516065817, 3600352804, 4094571909, 275423344,
   430227734, 506948616, 659060556, 883997877, 958139571, 1322822218,
   1537002063, 1747873779, 1955562222, 2024104815, 2227730452, 2361852424,
   2428436474, 2756734187, 3204031479, 3329325298]

/-- The SHA-256 initial hash value (FIPS 180-4 §5.3.3, in decimal). -/
def shaH0 : List Nat :=
  [1779033703, 3144134277, 1013904242, 2773480762,
   1359893119, 2600822924, 528734635, 1541459225]

/-- Message padding: append `0x80`, zero-fill to 56 mod 64, then the
original bit length as eight big-endian bytes. -/
def shaPad (msg : List Nat) : List Nat :=
  let len := msg.length
  let zeros := (119 - len % 64) % 64
  let bitLen := len * 8
  msg ++ [0x80] ++ List.replicate zeros 0 ++
    [w32 (bitLen / 2 ^ 56) % 256, bitLen / 2 ^ 48 % 256, bitLen / 2 ^ 40 % 256,
     bitLen / 2 ^ 32 % 256, bitLen / 2 ^ 24 % 256, bitLen / 2 ^ 16 % 256,
     bitLen / 2 ^ 8 % 256, bitLen % 256]

/-- Split a padded message into 64-byte blocks (fuel-structural: each step
consumes at least one byte, so the length bounds the number of blocks). -/
def blocks64Go : Nat → List Nat → List (List Nat)
  | _, [] => []
  | 0, _ :: _ => []
  | fuel + 1, b :: rest => ((b :: rest).take 64) :: blocks64Go fuel ((b :: rest).drop 64)

/-- Split a padded message into 64-byte blocks. -/
def blocks64 (l : List Nat) : List (List Nat) := blocks64Go l.length l

/-- Pack four consecutive bytes big-endian into words. -/
def bytesToWords : List Nat → List Nat
  | a :: b :: c :: d :: rest => (a * 16777216 + b * 65536 + c * 256 + d) :: bytesToWords rest
  | _ => []

/-- The small sigma-0 schedule function. -/
def ssig0 (x : Nat) : Nat := Nat.xor (rotr 7 x) (Nat.xor (rotr 18 x) (x / 2 ^ 3))

/-- The small sigma-1 schedule function. -/
def ssig1 (x : Nat) : Nat := Nat.xor (rotr 17 x) (Nat.xor (rotr 19 x) (x / 2 ^ 10))

/-- Extend the 16 message words to 64 schedule words. -/
def extendSchedule (w : List Nat) : Nat → List Nat
  | 0 => w
  | n + 1 =>
    let i := w.length
    extendSchedule
      (w ++ [w32 (w.getD (i - 16) 0 + ssig0 (w.getD (i - 15) 0) +
                  w.getD (i - 7) 0 + ssig1 (w.getD (i - 2) 0))]) n

/-- One SHA-256 round on the eight-word working state. -/
def shaRound (st : List Nat) (ki wi : Nat) : List Nat :=
  match st with
  | [a, b, c, d, e, f, g, h] =>
    let s1 := Nat.xor (rotr 6 e) (Nat.xor (rotr 11 e) (rotr 25 e))
    let ch := Nat.xor (Nat.land e f) (Nat.land (not32 e) g)
    let t1 := w32 (h + s1 + ch + ki + wi)
    let s0 := Nat.xor (rotr 2 a) (Nat.xor (rotr 13 a) (rotr 22 a))
    let maj := Nat.xor (Nat.land a b) (Nat.xor (Nat.land a c) (Nat.land b c))
    let t2 := w32 (s0 + maj)
    [w32 (t1 + t2), a, b, c, w32 (d + t1), e, f, g]
  | st => st

/-- Compress one 64-byte block into the running hash. -/
def shaCompress (h : List Nat) (block : List Nat) : List Nat :=
  let w := extendSchedule (bytesToWords block) 48
  let st := (List.range 64).foldl
    (fun st i => shaRound st (shaK.getD i 0) (w.getD i 0)) h
  (h.zip st).map fun p => w32 (p.1 + p.2)

/-- Serialize the eight-word hash as 32 big-endian bytes. -/
def wordsToBytes (ws : List Nat) : List Nat :=
  ws.flatMap fun x => [x / 16777216 % 256, x / 65536 % 256, x / 256 % 256, x % 256]

/-- SHA-256 of a byte string. -/
def sha256 (msg : List Nat) : List Nat :=
  wordsToBytes ((blocks64 (shaPad msg)).foldl shaCompress shaH0)

/-! ## HMAC (RFC 2104), the construction behind `hmac.new(..., hashlib.sha256)` -/

/-- HMAC-SHA256 over byte strings: the standard two-pass construction with
a 64-byte block, keys longer than a block first hashed. -/
def hmacSha256 (key msg : List Nat) : List Nat :=
  let k0 := if 64 < key.length then sha256 key else key
  let k := k0 ++ List.replicate (64 - k0.length) 0
  let ipad := k.map fun b => Nat.xor b 0x36
  let opad := k.map fun b => Nat.xor b 0x5c
  sha256 (opad ++ sha256 (ipad ++ msg))

/-- `hmac.new(key, msg, hashlib.sha256).hexdigest()`. -/
def hmacSha256Hex (key msg : List Nat) : String := hexOfBytes (hmacSha256 key msg)

/-! ## Python building blocks: truthiness, `int()`, `str.strip()`, dicts -/

/-- Python's whitespace set as used by `str.strip()` and `int()` (ASCII part). -/
def isPySpace (c : Char) : Bool :=
  c = ' ' ∨ c = '\t' ∨ c = '\n' ∨ c = '\x0d' ∨ c = '\x0b' ∨ c = '\x0c'

/-- `str.strip()`: remove leading and trailing whitespace. -/
def pyStrip (s : String) : String :=
  ⟨(s.data.dropWhile isPySpace).reverse.dropWhile isPySpace |>.reverse⟩

/-- Value of a decimal digit character. -/
def digitVal (c : Char) : Nat := c.toNat - 48

/-- Digit run with Python's underscore rule: an underscore must sit between
two digits. Accumulates the value. -/
def pyDigits (acc : Nat) : List Char → Option Nat
  | [] => some acc
  | '_' :: c :: rest =>
    if c.isDigit then pyDigits (acc * 10 + digitVal c) rest else none
  | ['_'] => none
  | c :: rest =>
    if c.isDigit then pyDigits (acc * 10 + digitVal c) rest else none

/-- `int(s)` for a decimal string: strip whitespace, optional sign, digits
with optional single underscores between digits; `none` models `ValueError`. -/
def pythonInt (s : String) : Option Int :=
  match (pyStrip s).data with
  | '-' :: c :: rest =>
    if c.isDigit then (pyDigits (digitVal c) rest).map (fun n => -(n : Int)) else none
  | '+' :: c :: rest =>
    if c.isDigit then (pyDigits (digitVal c) rest).map (fun n => (n : Int)) else none
  | c :: rest =>
    if c.isDigit then (pyDigits (digitVal c) rest).map (fun n => (n : Int)) else none
  | [] => none

/-- A Python `dict[str, str]` as an association list (keys of a real dict are
unique; lookups take the first match). -/
abbrev Dict := List (String × String)

/-- `d.get(k)`. -/
def dGet (d : Dict) (k : String) : Option String :=
  (d.find? (fun p => p.1 == k)).map (·.2)

/-- `k in d`. -/
def dHas (d : Dict) (k : String) : Bool := (dGet d k).isSome

/-- `a or b` for an optional string `a`: `None` and `""` are falsy. -/
def pyOrS (a : Option String) (b : String) : String :=
  match a with
  | some v => if v = "" then b else v
  | none => b

/-! ## UTF-8 decoding (`bytes.decode("utf-8")`) -/

/-- Is the byte a UTF-8 continuation byte? -/
def isCont (b : Nat) : Bool := 0x80 ≤ b ∧ b < 0xC0

/-- Decode one UTF-8 scalar whose lead byte is `b`: the character, whether
the sequence was valid (else U+FFFD with only the lead byte consumed), and
the unconsumed remainder. Follows the standard table, rejecting overlong
forms and surrogate encodings. -/
def utf8Step (b : Nat) (rest : List Nat) : Char × Bool × List Nat :=
  if b < 0x80 then (Char.ofNat b, true, rest)
  else if 0xC2 ≤ b ∧ b ≤ 0xDF then
    match rest with
    | c1 :: rest' =>
      if isCont c1 then
        (Char.ofNat ((b - 0xC0) * 64 + (c1 - 0x80)), true, rest')
      else ('�', false, rest)
    | [] => ('�', false, [])
  else if 0xE0 ≤ b ∧ b ≤ 0xEF then
    match rest with
    | c1 :: c2 :: rest' =>
      if (if b = 0xE0 then 0xA0 ≤ c1 ∧ c1 ≤ 0xBF
          else if b = 0xED then 0x80 ≤ c1 ∧ c1 ≤ 0x9F
          else isCont c1) ∧ isCont c2 then
        (Char.ofNat ((b - 0xE0) * 4096 + (c1 - 0x80) * 64 + (c2 - 0x80)), true, rest')
      else ('�', false, rest)
    | _ => ('�', false, rest)
  else if 0xF0 ≤ b ∧ b ≤ 0xF4 then
    match rest with
    | c1 :: c2 :: c3 :: rest' =>
      if (if b = 0xF0 then 0x90 ≤ c1 ∧ c1 ≤ 0xBF
          else if b = 0xF4 then 0x80 ≤ c1 ∧ c1 ≤ 0x8F
          else isCont c1) ∧ isCont c2 ∧ isCont c3 then
        (Char.ofNat ((b - 0xF0) * 262144 + (c1 - 0x80) * 4096 +
                     (c2 - 0x80) * 64 + (c3 - 0x80)), true, rest')
      else ('�', false, rest)
    | _ => ('�', false, rest)
  else ('�', false, rest)

/-- UTF-8 decoder loop: each step consumes at least the lead byte, so the
input length is enough fuel. -/
def utf8DecGo : Nat → List Nat → List Char × Bool
  | _, [] => ([], true)
  | 0, _ :: _ => ([], false)
  | fuel + 1, b :: rest =>
    let s := utf8Step b rest
    let (cs, ok) := utf8DecGo fuel s.2.2
    (s.1 :: cs, s.2.1 && ok)

/-- UTF-8 decoder: characters plus a validity flag (`false` once any
invalid sequence was replaced by U+FFFD). -/
def utf8Dec (bs : List Nat) : List Char × Bool := utf8DecGo bs.length bs

/-- `bytes.decode("utf-8")` with strict errors: `none` models `UnicodeDecodeError`. -/
def utf8DecodeStrict (bs : List Nat) : Option String :=
  match utf8Dec bs with
  | (cs, true) => some ⟨cs⟩
  | (_, false) => none

/-- `bytes.decode("utf-8", errors="replace")`: invalid sequences become U+FFFD. -/
def utf8DecodeReplace (bs : List Nat) : String := ⟨(utf8Dec bs).1⟩

/-! ## Base64 (`base64.b64decode`) -/

/-- Value of a standard-alphabet base64 character. -/
def b64Val (c : Char) : Option Nat :=
  if 'A' ≤ c ∧ c ≤ 'Z' then some (c.toNat - 65)
  else if 'a' ≤ c ∧ c ≤ 'z' then some (c.toNat - 71)
  else if '0' ≤ c ∧ c ≤ '9' then some (c.toNat + 4)
  else if c = '+' then some 62
  else if c = '/' then some 63
  else none

/-- Decode 6-bit groups into bytes (final partial group per padding rules). -/
def b64Groups : List Nat → Option (List Nat)
  | [] => some []
  | [_] => none
  | [a, b] => some [a * 4 + b / 16]
  | [a, b, c] => some [a * 4 + b / 16, b % 16 * 16 + c / 4]
  | a :: b :: c :: d :: rest =>
    (b64Groups rest).map
      (fun tl => (a * 4 + b / 16) :: (b % 16 * 16 + c / 4) :: (c % 4 * 64 + d) :: tl)

/-- `base64.b64decode(s)` (validate=False): non-alphabet characters are
discarded, data stops at the first `=`, a leftover single character is a
padding error (`binascii.Error`). -/
def b64decodeBytes (s : String) : Except PyErr (List Nat) :=
  let kept := (s.data.takeWhile (fun c => c ≠ '=')).filterMap b64Val
  match b64Groups kept with
  | some bs => .ok bs
  | none => .error "binascii.Error"

/-! ## Percent decoding and `urllib.parse.parse_qs` -/

/-- Is the character an ASCII hex digit? -/
def isHexChar (c : Char) : Bool :=
  c.isDigit ∨ ('a' ≤ c ∧ c ≤ 'f') ∨ ('A' ≤ c ∧ c ≤ 'F')

/-- Value of a hex digit character (either case). -/
def hexVal (c : Char) : Nat :=
  if c.isDigit then c.toNat - 48
  else if 'a' ≤ c ∧ c ≤ 'f' then c.toNat - 87
  else if 'A' ≤ c ∧ c ≤ 'F' then c.toNat - 55
  else 0

/-- Percent-unescape to bytes: `%XX` with two hex digits becomes a byte,
everything else contributes its UTF-8 bytes. -/
def pctBytes : List Char → List Nat
  | '%' :: h1 :: h2 :: rest =>
    if isHexChar h1 ∧ isHexChar h2 then
      (hexVal h1 * 16 + hexVal h2) :: pctBytes rest
    else utf8Char '%' ++ pctBytes (h1 :: h2 :: rest)
  | c :: rest => utf8Char c ++ pctBytes rest
  | [] => []

/-- `urllib.parse.unquote_plus`: `+` to space, percent-decode, UTF-8 decode
with replacement. -/
def unquotePlus (s : String) : String :=
  utf8DecodeReplace (pctBytes (s.data.map fun c => if c = '+' then ' ' else c))

/-- Split a list at every occurrence of a separator. -/
def splitOnChar (sep : Char) (cs : List Char) : List (List Char) :=
  match cs with
  | [] => [[]]
  | c :: rest =>
    let r := splitOnChar sep rest
    if c = sep then [] :: r
    else match r with
      | h :: t => (c :: h) :: t
      | [] => [[c]]

/-- `urllib.parse.parse_qs(body)` followed by the handler's comprehension
`{k: v[0] for ...}`: chunks split on `&`; the name/value split is on the
first `=`; a chunk without `=` or with an empty value is dropped
(`keep_blank_values=False`); names and values are `unquote_plus`-decoded.
`parse_qs` keys carry their values in order, and `v[0]` takes the first, so
an association list with first-match lookup models the resulting dict. -/
def parseForm (body : String) : Dict :=
  (splitOnChar '&' body.data).foldr
    (fun chunk acc =>
      match splitOnChar '=' chunk with
      | k :: v₁ :: vrest =>
        let v := String.intercalate "=" ((v₁ :: vrest).map fun l => (⟨l⟩ : String))
        if v = "" then acc else (unquotePlus ⟨k⟩, unquotePlus v) :: acc
      | _ => acc)
    []

/-! ## JSON values, `json.dumps` and `json.loads`

Python objects that can appear in the payloads: dicts keep field order, so
an object is an ordered field list.  Numbers are kept as their source
lexeme — no response in this codebase serializes a parsed number, so no
numeric arithmetic is ever needed on them. -/

inductive Json where
  | null : Json
  | bool (b : Bool) : Json
  | str (s : String) : Json
  | num (lexeme : String) : Json
  | arr (elems : List Json) : Json
  | obj (fields : List (String × Json)) : Json
  deriving Repr

namespace Json

/-- `d.get(k)` on a JSON object; `none` when the key is absent.  Callers
that index (`d[k]`) turn the `none` into a `KeyError`. -/
def get : Json → String → Option Json
  | obj fields, k => (fields.find? (fun p => p.1 == k)).map (·.2)
  | _, _ => none

/-- Python truthiness of a decoded JSON value (`if result.get("ok"):` …). -/
def truthy : Option Json → Bool
  | some (bool b) => b
  | some (str s) => s ≠ ""
  | some (num l) => l ≠ "0" ∧ l ≠ "-0" ∧ l ≠ "0.0"
  | some (arr []) => false
  | some (arr (_ :: _)) => true
  | some (obj []) => false
  | some (obj (_ :: _)) => true
  | some null => false
  | none => false

/-- Python `v == s` for an optional JSON value against a string literal:
true exactly when the value is that string. -/
def isStr (v : Option Json) (s : String) : Bool :=
  match v with
  | some (str t) => t == s
  | _ => false

end Json

/-- Four lowercase hex digits, as in `json`'s `\uXXXX` escapes. -/
def hex4 (n : Nat) : List Char :=
  [hexDigit (n / 4096 % 16), hexDigit (n / 256 % 16),
   hexDigit (n / 16 % 16), hexDigit (n % 16)]

/-- `json.dumps` escaping of one character (`ensure_ascii=True`): the named
escapes, `\uXXXX` for other characters outside `0x20`–`0x7e`, surrogate
pairs above the BMP. -/
def jsonEscapeChar (c : Char) : List Char :=
  if c = '"' then ['\\', '"']
  else if c = '\\' then ['\\', '\\']
  else if c = '\n' then ['\\', 'n']
  else if c = '\x0d' then ['\\', 'r']
  else if c = '\t' then ['\\', 't']
  else if c = '\x08' then ['\\', 'b']
  else if c = '\x0c' then ['\\', 'f']
  else if c.toNat < 0x20 ∨ 0x7e < c.toNat then
    if c.toNat < 0x10000 then '\\' :: 'u' :: hex4 c.toNat
    else
      let n := c.toNat - 0x10000
      '\\' :: 'u' :: hex4 (0xD800 + n / 1024) ++ '\\' :: 'u' :: hex4 (0xDC00 + n % 1024)
  else [c]

/-- `json.dumps` escaping of a string body. -/
def jsonEscape (s : String) : String := ⟨s.data.flatMap jsonEscapeChar⟩

mutual

/-- `json.dumps(v)` with the default separators `", "` and `": "` and
`ensure_ascii=True`, field order the dict's insertion order. -/
def jsonDumps : Json → String
  | .null => "null"
  | .bool true => "true"
  | .bool false => "false"
  | .str s => "\"" ++ jsonEscape s ++ "\""
  | .num l => l
  | .arr es => "[" ++ dumpsElems es ++ "]"
  | .obj fs => "\x7b" ++ dumpsFields fs ++ "\x7d"

/-- Comma-joined array elements. -/
def dumpsElems : List Json → String
  | [] => ""
  | [x] => jsonDumps x
  | x :: xs => jsonDumps x ++ ", " ++ dumpsElems xs

/-- Comma-joined `"key": value` pairs. -/
def dumpsFields : List (String × Json) → String
  | [] => ""
  | [(k, v)] => "\"" ++ jsonEscape k ++ "\": " ++ jsonDumps v
  | (k, v) :: fs => "\"" ++ jsonEscape k ++ "\": " ++ jsonDumps v ++ ", " ++ dumpsFields fs

end

/-- JSON whitespace (`json.loads` skips exactly these). -/
def skipWs (cs : List Char) : List Char :=
  cs.dropWhile fun c => c = ' ' ∨ c = '\t' ∨ c = '\n' ∨ c = '\x0d'

/-- Parse exactly four hex digits. -/
def pHex4 : List Char → Option (Nat × List Char)
  | a :: b :: c :: d :: rest =>
    if isHexChar a ∧ isHexChar b ∧ isHexChar c ∧ isHexChar d then
      some (hexVal a * 4096 + hexVal b * 256 + hexVal c * 16 + hexVal d, rest)
    else none
  | _ => none

/-- Parse a JSON string body (after the opening quote), accumulating in
reverse.  Raw control characters are rejected (`strict=True`); surrogate
escape pairs combine; a lone surrogate escape — which Python would keep as
a surrogate code unit, unrepresentable in `Char` — becomes U+FFFD. -/
def pStr (acc : List Char) : Nat → List Char → Option (String × List Char)
  | 0, _ => none
  | _ + 1, [] => none
  | fuel + 1, c :: rest =>
    if c = '"' then some (⟨acc.reverse⟩, rest)
    else if c = '\\' then
      match rest with
      | 'u' :: r =>
        match pHex4 r with
        | some (n, r') =>
          if 0xD800 ≤ n ∧ n < 0xDC00 then
            match r' with
            | '\\' :: 'u' :: r'' =>
              match pHex4 r'' with
              | some (n2, r''') =>
                if 0xDC00 ≤ n2 ∧ n2 < 0xE000 then
                  pStr (Char.ofNat (0x10000 + (n - 0xD800) * 1024 + (n2 - 0xDC00)) :: acc)
                    fuel r'''
                else pStr ('�' :: acc) fuel r'
              | none => pStr ('�' :: acc) fuel r'
            | _ => pStr ('�' :: acc) fuel r'
          else if 0xDC00 ≤ n ∧ n < 0xE000 then pStr ('�' :: acc) fuel r'
          else pStr (Char.ofNat n :: acc) fuel r'
        | none => none
      | e :: r =>
        if e = '"' then pStr ('"' :: acc) fuel r
        else if e = '\\' then pStr ('\\' :: acc) fuel r
        else if e = '/' then pStr ('/' :: acc) fuel r
        else if e = 'b' then pStr ('\x08' :: acc) fuel r
        else if e = 'f' then pStr ('\x0c' :: acc) fuel r
        else if e = 'n' then pStr ('\n' :: acc) fuel r
        else if e = 'r' then pStr ('\x0d' :: acc) fuel r
        else if e = 't' then pStr ('\t' :: acc) fuel r
        else none
      | [] => none
    else if c.toNat < 0x20 then none
    else pStr (c :: acc) fuel rest

/-- Parse a JSON number per the `json` module's grammar
`-?(0|[1-9][0-9]*)(\.[0-9]+)?([eE][-+]?[0-9]+)?`, kept as its lexeme. -/
def pNum (cs : List Char) : Option (Json × List Char) :=
  let (sign, cs₁) := match cs with
    | '-' :: r => (['-'], r)
    | _ => (([] : List Char), cs)
  match cs₁ with
  | c :: r =>
    if ¬ c.isDigit then none else
    let (intPart, r₁) :=
      if c = '0' then ([c], r)
      else (c :: r.takeWhile Char.isDigit, r.dropWhile Char.isDigit)
    let (fracPart, r₂) :=
      match r₁ with
      | '.' :: f :: fr =>
        if f.isDigit then
          ('.' :: f :: fr.takeWhile Char.isDigit, fr.dropWhile Char.isDigit)
        else (([] : List Char), r₁)
      | _ => (([] : List Char), r₁)
    match r₂ with
    | e :: er =>
      if e = 'e' ∨ e = 'E' then
        let (esign, er₁) := match er with
          | '+' :: r' => (['+'], r')
          | '-' :: r' => (['-'], r')
          | _ => (([] : List Char), er)
        match er₁ with
        | d :: dr =>
          if d.isDigit then
            some (.num ⟨sign ++ intPart ++ fracPart ++ e :: esign ++
                        d :: dr.takeWhile Char.isDigit⟩,
                  dr.dropWhile Char.isDigit)
          else none
        | [] => none
      else some (.num ⟨sign ++ intPart ++ fracPart⟩, r₂)
    | [] => some (.num ⟨sign ++ intPart ++ fracPart⟩, [])
  | [] => none

mutual

/-- Parse one JSON value. -/
def pVal : Nat → List Char → Option (Json × List Char)
  | 0, _ => none
  | fuel + 1, cs =>
    match skipWs cs with
    | 'n' :: 'u' :: 'l' :: 'l' :: r => some (.null, r)
    | 't' :: 'r' :: 'u' :: 'e' :: r => some (.bool true, r)
    | 'f' :: 'a' :: 'l' :: 's' :: 'e' :: r => some (.bool false, r)
    | '"' :: r => (pStr [] (fuel + 1) r).map fun p => (.str p.1, p.2)
    | '[' :: r =>
      (match skipWs r with
       | ']' :: r' => some (.arr [], r')
       | _ => pElems [] fuel r)
    | '\x7b' :: r =>
      (match skipWs r with
       | '\x7d' :: r' => some (.obj [], r')
       | _ => pFields [] fuel r)
    | c :: r => if c = '-' ∨ c.isDigit then pNum (c :: r) else none
    | [] => none

/-- Parse comma-separated array elements, accumulating in reverse. -/
def pElems (acc : List Json) : Nat → List Char → Option (Json × List Char)
  | 0, _ => none
  | fuel + 1, cs =>
    match pVal fuel cs with
    | some (v, rest) =>
      match skipWs rest with
      | ',' :: r => pElems (v :: acc) fuel r
      | ']' :: r => some (.arr (v :: acc).reverse, r)
      | _ => none
    | none => none

/-- Parse comma-separated `"key": value` members, accumulating in reverse. -/
def pFields (acc : List (String × Json)) : Nat → List Char → Option (Json × List Char)
  | 0, _ => none
  | fuel + 1, cs =>
    match skipWs cs with
    | '"' :: r =>
      match pStr [] (fuel + 1) r with
      | some (k, rest) =>
        match skipWs rest with
        | ':' :: r' =>
          match pVal fuel r' with
          | some (v, rest') =>
            match skipWs rest' with
            | ',' :: r'' => pFields ((k, v) :: acc) fuel r''
            | '\x7d' :: r'' => some (.obj ((k, v) :: acc).reverse, r'')
            | _ => none
          | none => none
        | _ => none
      | none => none
    | _ => none

end

/-- `json.loads(s)`: parse one value, require only whitespace after it;
`none` models `json.JSONDecodeError`.  The fuel is generous: every parser
level consumes at least one character or one nesting step. -/
def jsonLoads (s : String) : Option Json :=
  match pVal (4 * s.length + 8) s.data with
  | some (v, rest) => if skipWs rest = [] then some v else none
  | none => none

/-! ## String ordering

Both Python string comparison (code points) and the DynamoDB sort key
(UTF-8 bytes) order the ASCII timestamps used here the same way; an
executable code-point-lexicographic comparison models both. -/

/-- Lexicographic less-or-equal on code-point lists. -/
def charListLe : List Char → List Char → Bool
  | [], _ => true
  | _ :: _, [] => false
  | a :: as, b :: bs =>
    if a.toNat < b.toNat then true
    else if b.toNat < a.toNat then false
    else charListLe as bs

/-- Lexicographic less-or-equal on strings. -/
def strLe (a b : String) : Bool := charListLe a.data b.data

/-- Strict lexicographic order on strings. -/
def strLt (a b : String) : Bool := !(strLe b a)

theorem charListLe_total : ∀ as bs, charListLe as bs = true ∨ charListLe bs as = true := by
  intro as
  induction as with
  | nil => intro bs; left; rfl
  | cons a as ih =>
    intro bs
    cases bs with
    | nil => right; rfl
    | cons b bs =>
      unfold charListLe
      rcases Nat.lt_trichotomy a.toNat b.toNat with h | h | h
      · left; simp [h]
      · rcases ih bs with h' | h' <;> simp [h, h']
      · right; simp [h, Nat.lt_asymm h]

theorem charListLe_trans : ∀ as bs cs, charListLe as bs = true →
    charListLe bs cs = true → charListLe as cs = true := by
  intro as
  induction as with
  | nil => intro bs cs _ _; rfl
  | cons a as ih =>
    intro bs cs h₁ h₂
    cases bs with
    | nil => exact absurd h₁ (by simp [charListLe])
    | cons b bs =>
      cases cs with
      | nil => exact absurd h₂ (by simp [charListLe])
      | cons c cs =>
        unfold charListLe at h₁ h₂ ⊢
        by_cases hba : b.toNat < a.toNat
        · simp [Nat.lt_asymm hba, hba] at h₁
        · by_cases hcb : c.toNat < b.toNat
          · simp [Nat.lt_asymm hcb, hcb] at h₂
          · by_cases hac : a.toNat < c.toNat
            · simp [hac]
            · have h₁' : charListLe as bs = true := by
                simp [show ¬ a.toNat < b.toNat by omega, hba] at h₁
                exact h₁
              have h₂' : charListLe bs cs = true := by
                simp [show ¬ b.toNat < c.toNat by omega, hcb] at h₂
                exact h₂
              simp [hac, show ¬ c.toNat < a.toNat by omega]
              exact ih bs cs h₁' h₂'

theorem charListLe_antisymm : ∀ as bs, charListLe as bs = true →
    charListLe bs as = true → as = bs := by
  intro as
  induction as with
  | nil =>
    intro bs _ h₂
    cases bs with
    | nil => rfl
    | cons b bs => exact absurd h₂ (by simp [charListLe])
  | cons a as ih =>
    intro bs h₁ h₂
    cases bs with
    | nil => exact absurd h₁ (by simp [charListLe])
    | cons b bs =>
      unfold charListLe at h₁ h₂
      rcases Nat.lt_trichotomy a.toNat b.toNat with hab | hab | hab
      · simp [hab, Nat.lt_asymm hab] at h₂
      · have : a = b := Char.ext (UInt32.ext hab)
        subst this
        simp [Nat.lt_irrefl] at h₁ h₂
        rw [ih bs h₁ h₂]
      · simp [hab, Nat.lt_asymm hab] at h₁

theorem strLe_total (a b : String) : strLe a b = true ∨ strLe b a = true :=
  charListLe_total a.data b.data

theorem strLe_trans {a b c : String} (h₁ : strLe a b = true)
    (h₂ : strLe b c = true) : strLe a c = true :=
  charListLe_trans a.data b.data c.data h₁ h₂

theorem strLe_antisymm {a b : String} (h₁ : strLe a b = true)
    (h₂ : strLe b a = true) : a = b :=
  String.ext (charListLe_antisymm a.data b.data h₁ h₂)

theorem strLe_refl (a : String) : strLe a a = true := by
  rcases strLe_total a a with h | h <;> exact h

/-! ## A stable sort

Python's `sorted`/`list.sort` (Timsort) and DynamoDB's sort-key ordering
are modelled by a stable insertion sort: a new element goes after every
element already placed that compares `le` to it, so equal elements keep
their arrival order exactly as Timsort guarantees. -/

/-- Insert `x` after the longest prefix of elements `le`-below-or-tied. -/
def insertS {α : Type} (le : α → α → Bool) (x : α) : List α → List α
  | [] => [x]
  | y :: ys => if le y x then y :: insertS le x ys else x :: y :: ys

/-- Stable sort by repeated insertion, left to right. -/
def stableSort {α : Type} (le : α → α → Bool) (l : List α) : List α :=
  l.foldl (fun acc x => insertS le x acc) []

theorem insertS_perm {α : Type} (le : α → α → Bool) (x : α) (l : List α) :
    (insertS le x l).Perm (x :: l) := by
  induction l with
  | nil => simp [insertS]
  | cons y ys ih =>
    unfold insertS
    split
    · exact ((ih.cons y).trans (List.Perm.swap x y ys)).symm.symm
    · exact List.Perm.refl _

theorem stableSort_perm {α : Type} (le : α → α → Bool) (l : List α) :
    (stableSort le l).Perm l := by
  suffices h : ∀ (xs acc : List α),
      (xs.foldl (fun a x => insertS le x a) acc).Perm (acc ++ xs) by
    simpa using h l []
  intro xs
  induction xs with
  | nil => simp
  | cons x xs ih =>
    intro acc
    simp only [List.foldl_cons]
    refine (ih (insertS le x acc)).trans ?_
    refine ((insertS_perm le x acc).append_right xs).trans ?_
    simpa using (@List.perm_middle _ x acc xs).symm

theorem insertS_pairwise {α : Type} (le : α → α → Bool)
    (htrans : ∀ a b c, le a b = true → le b c = true → le a c = true)
    (htotal : ∀ a b, le a b = true ∨ le b a = true)
    (x : α) (l : List α) (hl : l.Pairwise (fun a b => le a b = true)) :
    (insertS le x l).Pairwise (fun a b => le a b = true) := by
  induction l with
  | nil => simp [insertS]
  | cons y ys ih =>
    rw [List.pairwise_cons] at hl
    unfold insertS
    split
    · rename_i hyx
      rw [List.pairwise_cons]
      refine ⟨?_, ih hl.2⟩
      intro a ha
      rcases List.mem_cons.mp (((insertS_perm le x ys).mem_iff).mp ha) with h | h
      · subst h; exact hyx
      · exact hl.1 a h
    · rename_i hyx
      have hxy : le x y = true := by
        rcases htotal x y with h | h
        · exact h
        · exact absurd h hyx
      rw [List.pairwise_cons]
      constructor
      · intro a ha
        rcases List.mem_cons.mp ha with h | h
        · subst h; exact hxy
        · exact htrans x y a hxy (hl.1 a h)
      · exact List.Pairwise.cons hl.1 hl.2

theorem stableSort_pairwise {α : Type} (le : α → α → Bool)
    (htrans : ∀ a b c, le a b = true → le b c = true → le a c = true)
    (htotal : ∀ a b, le a b = true ∨ le b a = true) (l : List α) :
    (stableSort le l).Pairwise (fun a b => le a b = true) := by
  suffices h : ∀ (xs acc : List α), acc.Pairwise (fun a b => le a b = true) →
      (xs.foldl (fun a x => insertS le x a) acc).Pairwise (fun a b => le a b = true) by
    exact h l [] (by simp)
  intro xs
  induction xs with
  | nil => intro acc h; simpa using h
  | cons x xs ih =>
    intro acc h
    simp only [List.foldl_cons]
    exact ih _ (insertS_pairwise le htrans htotal x acc h)

/-- In an `le`-sorted permutation of `e :: rest` where no element of
`rest` may precede `e` (`le x e = false`), `e` is the head and the tail is
a permutation of `rest`. -/
theorem sorted_perm_cons_max {α : Type} (le : α → α → Bool)
    (htotal : ∀ a b, le a b = true ∨ le b a = true) (e : α)
    (rest L : List α) (hperm : L.Perm (e :: rest))
    (hsort : L.Pairwise (fun a b => le a b = true))
    (hmax : ∀ x ∈ rest, le x e = false) :
    ∃ T, L = e :: T ∧ T.Perm rest := by
  cases L with
  | nil => exact absurd hperm.length_eq (by simp)
  | cons h T =>
    have hhmem : h ∈ e :: rest := hperm.mem_iff.mp (by simp)
    have hht : ∀ a ∈ T, le h a = true := (List.pairwise_cons.mp hsort).1
    rcases List.mem_cons.mp hhmem with rfl | hmem
    · exact ⟨T, rfl, (List.perm_cons h).mp hperm⟩
    · exfalso
      have hhe : le h e = false := hmax h hmem
      have hemem : e ∈ h :: T := hperm.mem_iff.mpr (by simp)
      rcases List.mem_cons.mp hemem with rfl | hT
      · rcases htotal e e with ht | ht <;> rw [hhe] at ht <;> exact Bool.noConfusion ht
      · rw [hht e hT] at hhe
        exact Bool.noConfusion hhe

/-! ## `server/db.py` — the Record Store

The DynamoDB table (PK `user_id`, SK `ts`) is a set of items with at most
one item per key; order is irrelevant because every read sorts.  `put_item`
and `query` are `boto3` calls, external to the repository; modelled from
the spec: "`put(user_id, timestamp, message, user_name?)`: unconditional
write" and "`get_latest(user_id, n)`: up to `n` most recent entries,
newest-first" (§6). -/

structure Entry where
  user_id : String
  ts : String
  message : String
  user_name : Option String
  deriving Repr, DecidableEq

abbrev Table := List Entry

/-- DynamoDB `put_item`: an unconditional write that replaces any existing
item with the same `(user_id, ts)` key. -/
def putItem (t : Table) (e : Entry) : Table :=
  e :: t.filter fun x => ¬ (x.user_id = e.user_id ∧ x.ts = e.ts)

/-- The current and date/time in UTC, second precision
(`datetime.now(timezone.utc)` broken into civil fields). -/
structure UTCTime where
  year : Nat
  month : Nat
  day : Nat
  hour : Nat
  minute : Nat
  second : Nat
  deriving Repr, DecidableEq

/-- Two-digit zero-padded decimal. -/
def pad2 (n : Nat) : String := if n < 10 then "0" ++ toString n else toString n

/-- Four-digit zero-padded decimal (years). -/
def pad4 (n : Nat) : String :=
  if n < 10 then "000" ++ toString n
  else if n < 100 then "00" ++ toString n
  else if n < 1000 then "0" ++ toString n
  else toString n

/-- `_now_iso()`: the current UTC instant as `%Y-%m-%dT%H:%M:%SZ`. -/
def nowIso (t : UTCTime) : String :=
  pad4 t.year ++ "-" ++ pad2 t.month ++ "-" ++ pad2 t.day ++ "T" ++
  pad2 t.hour ++ ":" ++ pad2 t.minute ++ ":" ++ pad2 t.second ++ "Z"

/-- `save_standup`: write one standup row keyed by the current UTC
timestamp; `user_name` stored only when truthy.  Returns the timestamp
and the updated table. -/
def save_standup (t : Table) (now : UTCTime) (user_id message : String)
    (user_name : Option String) : String × Table :=
  let ts := nowIso now
  (ts, putItem t ⟨user_id, ts, message, user_name.filter (fun s => s ≠ "")⟩)

/-- Newest-first comparison on the sort key (DynamoDB
`ScanIndexForward=False` returns items in descending `ts` order). -/
def tsDesc (a b : Entry) : Bool := strLe b.ts a.ts

/-- Oldest-first comparison on the sort key. -/
def tsAsc (a b : Entry) : Bool := strLe a.ts b.ts

/-- `get_latest_n`: the user's items, newest first, limited to `n`. -/
def get_latest_n (t : Table) (user_id : String) (n : Nat) : List Entry :=
  (stableSort tsDesc (t.filter fun e => e.user_id == user_id)).take n

/-! ## `server/core_slack.py` — shared handlers -/

/-- Counted side effects of one request: Record Store writes and outbound
chat-platform calls. -/
structure Effects where
  storeWrites : Nat
  chatCalls : Nat
  deriving Repr, DecidableEq

/-- An HTTP response triple `(status_code, headers_dict, body_string)`. -/
structure Resp where
  status : Nat
  headers : Dict
  body : String
  deriving Repr, DecidableEq

/-- Outcome of the `views.open` HTTP call, which is external: either the
platform answered (with some JSON body), or the bounded 1.5-second timeout
fired, or another exception was raised. -/
inductive ModalOutcome where
  | api (j : Json)
  | timeout
  | exception
  deriving Repr

/-- The modal view literal built by `handle_standup`. -/
def standupModalView : Json :=
  .obj [("type", .str "modal"),
        ("callback_id", .str "standup_modal"),
        ("title", .obj [("type", .str "plain_text"), ("text", .str "Daily Standup")]),
        ("submit", .obj [("type", .str "plain_text"), ("text", .str "Submit")]),
        ("close", .obj [("type", .str "plain_text"), ("text", .str "Cancel")]),
        ("blocks", .arr [.obj [("type", .str "input"),
          ("block_id", .str "standup_input"),
          ("element", .obj [("type", .str "plain_text_input"),
            ("action_id", .str "standup_text"),
            ("multiline", .bool true),
            ("placeholder", .obj [("type", .str "plain_text"),
              ("text", .str "What did you work on today?")])]),
          ("label", .obj [("type", .str "plain_text"),
            ("text", .str "Your standup update")])]])]

/-- `open_modal`: calls `views.open` and returns its parsed JSON; on the
1.5-second timeout or any exception it returns an `ok: False` dict instead
of raising.  The network outcome is the oracle argument. -/
def open_modal (outcome : ModalOutcome) (_trigger_id : String) (_view : Json) : Json :=
  match outcome with
  | .api j => j
  | .timeout => .obj [("ok", .bool false), ("error", .str "timeout")]
  | .exception => .obj [("ok", .bool false), ("error", .str "exception")]

/-- The ephemeral-JSON response body `{"response_type": "ephemeral", "text": t}`. -/
def ephemeralBody (t : String) : String :=
  jsonDumps (.obj [("response_type", .str "ephemeral"), ("text", .str t)])

/-- `handle_standup`: the `/standup` slash-command handler.  Inline text is
saved immediately with an ephemeral acknowledgement; empty text attempts to
open the modal and returns 200 either way. -/
def handle_standup (form : Dict) (store : Table) (now : UTCTime)
    (modal : ModalOutcome) : Resp × Table × Effects :=
  let user_id := (dGet form "user_id").getD ""
  let user_name := (dGet form "user_name").getD ""
  let trigger_id := (dGet form "trigger_id").getD ""
  let text := pyStrip (pyOrS (dGet form "text") "")
  if text = "" then
    let result := open_modal modal trigger_id standupModalView
    if Json.truthy (result.get "ok") then
      (⟨200, [], ""⟩, store, ⟨0, 1⟩)
    else
      (⟨200, [("Content-Type", "application/json")],
        ephemeralBody "Couldn’t open the modal just now. Try again, or type `/standup your update`."⟩,
       store, ⟨0, 1⟩)
  else
    let (ts_saved, store') := save_standup store now user_id text (some user_name)
    let latest_two := get_latest_n store' user_id 2
    let prev := if latest_two.length = 2 then latest_two[1]? else none
    let ack := ":white_check_mark: Saved your update at *" ++ ts_saved ++ "* (UTC)\n> " ++ text
    let ack := match prev with
      | some p => ack ++ "\n\n*Previous:* _" ++ p.ts ++ "_\n> " ++ p.message
      | none => ack
    (⟨200, [("Content-Type", "application/json")], ephemeralBody ack⟩, store', ⟨1, 0⟩)

/-- Python `d[k]` on a JSON value: `KeyError` when the key is absent,
`TypeError` when the value is not a dict. -/
def jIndex (j : Json) (k : String) : Except PyErr Json :=
  match j with
  | .obj fs =>
    match (fs.find? fun p => p.1 == k).map (·.2) with
    | some v => .ok v
    | none => .error "KeyError"
  | _ => .error "TypeError"

/-- Extract the string out of a JSON value where the handler goes on to use
it as a string (user id, user name, the text input's value). -/
def jStr : Json → Except PyErr String
  | .str s => .ok s
  | _ => .error "TypeError"

/-- The `view_submission` branch of `handle_interactive`: extract the
submitter and the input value (`KeyError`/`TypeError` when the nested
structure is missing), save, and answer with a modal-update view showing
the new entry and, when present, the previous one. -/
def handleViewSubmission (payload : Json) (store : Table) (now : UTCTime) :
    Except PyErr (Resp × Table × Effects) := do
  let user_id ← jStr (← jIndex (← jIndex payload "user") "id")
  let user_name ← jStr (← jIndex (← jIndex payload "user") "name")
  let values ← jIndex (← jIndex (← jIndex payload "view") "state") "values"
  let standup_text ← jStr (← jIndex (← jIndex (← jIndex values "standup_input") "standup_text") "value")
  let (ts_saved, store') := save_standup store now user_id standup_text (some user_name)
  let latest_two := get_latest_n store' user_id 2
  let prev := if latest_two.length = 2 then latest_two[1]? else none
  let blocks : List Json :=
    [.obj [("type", .str "section"),
           ("text", .obj [("type", .str "mrkdwn"),
             ("text", .str (":white_check_mark: Saved at *" ++ ts_saved ++
                            "* (UTC)\n\n> " ++ standup_text))])]]
  let blocks := match prev with
    | some p => blocks ++ [.obj [("type", .str "section"),
        ("text", .obj [("type", .str "mrkdwn"),
          ("text", .str ("*Previous:* _" ++ p.ts ++ "_\n> " ++ p.message))])]]
    | none => blocks
  return (⟨200, [("Content-Type", "application/json")],
    jsonDumps (.obj [("response_action", .str "update"),
      ("view", .obj [("type", .str "modal"),
        ("title", .obj [("type", .str "plain_text"), ("text", .str "Standup Submitted!")]),
        ("close", .obj [("type", .str "plain_text"), ("text", .str "Close")]),
        ("blocks", .arr blocks)])])⟩,
    store', ⟨1, 0⟩)

/-- `handle_interactive`: the interactive-events handler.  An absent
`payload` field is acknowledged with an empty 200; the payload is then
`json.loads`-parsed **with no exception handler in this module**, so a
malformed payload propagates `JSONDecodeError` to the caller; the
`.get("type")` is an attribute access, an `AttributeError` on a non-dict.
A `view_submission` saves the submission and answers with a modal update;
any other payload type gets an empty 200. -/
def handle_interactive (form : Dict) (store : Table) (now : UTCTime) :
    Except PyErr (Resp × Table × Effects) :=
  let payload_raw := (dGet form "payload").getD ""
  if payload_raw = "" then
    .ok (⟨200, [], ""⟩, store, ⟨0, 0⟩)
  else
    match jsonLoads payload_raw with
    | none => .error "json.JSONDecodeError"
    | some payload =>
      match payload with
      | .obj fields =>
        if Json.isStr ((Json.obj fields).get "type") "view_submission" then
          handleViewSubmission (Json.obj fields) store now
        else
          .ok (⟨200, [], ""⟩, store, ⟨0, 0⟩)
      | _ => .error "AttributeError"

/-! ## `server/lambda_function.py` — verification and routing -/

/-- ASCII lowercasing of one character. -/
def asciiLower (c : Char) : Char :=
  if 'A' ≤ c ∧ c ≤ 'Z' then Char.ofNat (c.toNat + 32) else c

/-- `str.lower()` — the header names it is applied to are ASCII, where
Python's Unicode lowercasing coincides with the ASCII one. -/
def pyLower (s : String) : String := ⟨s.data.map asciiLower⟩

/-- `_hdr`: a header by exact name, else the all-lowercase name, else `""`
(empty header values fall through, `or` treats them as missing). -/
def hdrGet (headers : Dict) (name : String) : String :=
  pyOrS (dGet headers name) (pyOrS (dGet headers (pyLower name)) "")

/-- The signature the verifier computes:
`"v0=" + hex(HMAC-SHA256(secret, "v0:" + timestamp + ":" + raw_body))`. -/
def expectedSignature (secret timestamp raw_body : String) : String :=
  "v0=" ++ hmacSha256Hex (utf8Bytes secret)
    (utf8Bytes ("v0:" ++ timestamp ++ ":" ++ raw_body))

/-- `_verify_slack_signature`: reject on a missing header, an unparseable
timestamp, a timestamp more than 300 seconds from now, or a signature
mismatch.  `hmac.compare_digest` on two ASCII strings is string equality;
on a non-ASCII argument it raises `TypeError`, which the `except` turns
into `False` — and equality with the ASCII hex signature is false there
too, so plain equality models the comparison exactly. -/
def verifySlackSignature (secret : String) (now : Int) (headers : Dict)
    (raw_body : String) : Bool :=
  let timestamp := hdrGet headers "X-Slack-Request-Timestamp"
  let sig_from_slack := hdrGet headers "X-Slack-Signature"
  if timestamp = "" ∨ sig_from_slack = "" then false
  else
    match pythonInt timestamp with
    | none => false
    | some t =>
      if 300 < (now - t).natAbs then false
      else expectedSignature secret timestamp raw_body == sig_from_slack

/-- `_response`: the Lambda proxy response structure. -/
def response (status : Nat) (headers : Dict) (body : String) : Resp :=
  ⟨status, headers, body⟩

/-- The API Gateway event fields the handler reads. -/
structure Event where
  body : Option String
  isBase64Encoded : Bool
  headers : Option Dict
  rawPath : Option String
  path : Option String
  deriving Repr

/-- Python `str.endswith(suffix)`: the last characters equal the suffix. -/
def endsWithB (s suffix : String) : Bool :=
  decide (suffix.data = s.data.drop (s.data.length - suffix.data.length))

/-- Step 1 of the handler: the exact raw body, base64-decoded when the
event says so (a decode failure is an uncaught exception). -/
def decodeBody (event : Event) : Except PyErr String :=
  let body₀ := pyOrS event.body ""
  if event.isBase64Encoded then
    match b64decodeBytes body₀ with
    | .error e => .error e
    | .ok bs =>
      match utf8DecodeStrict bs with
      | none => .error "UnicodeDecodeError"
      | some s => .ok s
  else .ok body₀

/-- Re-wrap a core handler triple through `_response` (the identity on this
response representation). -/
def rewrap (v : Resp × Table × Effects) : Resp × Table × Effects :=
  (response v.1.status v.1.headers v.1.body, v.2.1, v.2.2)

/-- `rewrap` on a fallible handler result. -/
def rewrapE : Except PyErr (Resp × Table × Effects) →
    Except PyErr (Resp × Table × Effects)
  | .ok v => .ok (rewrap v)
  | .error e => .error e

/-- `handler`: decode the raw body, verify the signature before any form
parsing, parse the form, route by path then by field presence, else 404.
`secret` is `SLACK_SIGNING_SECRET`, `nowUnix` is `time.time()`, `now` the
same instant for `_now_iso`, `modal` the `views.open` oracle. -/
def handler (secret : String) (nowUnix : Int) (now : UTCTime)
    (modal : ModalOutcome) (event : Event) (store : Table) :
    Except PyErr (Resp × Table × Effects) :=
  match decodeBody event with
  | .error e => .error e
  | .ok body =>
    let headers := event.headers.getD []
    if verifySlackSignature secret nowUnix headers body then
      let form := parseForm body
      let raw_path := pyOrS event.rawPath (pyOrS event.path "/")
      if endsWithB raw_path "/standup" then
        .ok (rewrap (handle_standup form store now modal))
      else if endsWithB raw_path "/interactive" then
        rewrapE (handle_interactive form store now)
      else if dHas form "command" then
        .ok (rewrap (handle_standup form store now modal))
      else if dHas form "payload" then
        rewrapE (handle_interactive form store now)
      else
        .ok (response 404 [] "not found", store, ⟨0, 0⟩)
    else
      .ok (response 401 [] "bad signature", store, ⟨0, 0⟩)

/-! ## `server/app.py` — the Flask prototype's `/interactive` route

Its `user_updates` is an in-process dict keyed by user id; the whole body
runs inside `try`, and any exception becomes a 500 with a generic body. -/

/-- One `user_updates` record. -/
structure FlaskUpdate where
  update : String
  timestamp : String
  user_name : String
  deriving Repr, DecidableEq

/-- Dict assignment `d[k] = v`: replace in place or append. -/
def dSet (d : List (String × FlaskUpdate)) (k : String) (v : FlaskUpdate) :
    List (String × FlaskUpdate) :=
  if d.any (fun p => p.1 == k) then
    d.map fun p => if p.1 == k then (k, v) else p
  else d ++ [(k, v)]

/-- `datetime.now().strftime("%Y-%m-%d %H:%M:%S")` over the civil local
wall-clock fields. -/
def fmtLocal (t : UTCTime) : String :=
  pad4 t.year ++ "-" ++ pad2 t.month ++ "-" ++ pad2 t.day ++ " " ++
  pad2 t.hour ++ ":" ++ pad2 t.minute ++ ":" ++ pad2 t.second

/-- The body of the Flask route's `try`: `json.loads(request.form.get("payload"))`
(a `TypeError` when the field is absent), then the `view_submission` branch.
-/
def flaskInteractiveTry (form : Dict) (updates : List (String × FlaskUpdate))
    (nowLocal : UTCTime) : Except PyErr (Resp × List (String × FlaskUpdate)) := do
  let payloadStr ← match dGet form "payload" with
    | none => .error "TypeError"
    | some s => .ok s
  let payload ← match jsonLoads payloadStr with
    | none => .error "json.JSONDecodeError"
    | some p => .ok p
  let ptype ← jIndex payload "type"
  if Json.isStr (some ptype) "view_submission" then
    let user_id ← jStr (← jIndex (← jIndex payload "user") "id")
    let user_name ← jStr (← jIndex (← jIndex payload "user") "name")
    let values ← jIndex (← jIndex (← jIndex payload "view") "state") "values"
    let standup_text ← jStr (← jIndex (← jIndex (← jIndex values "standup_input") "standup_text") "value")
    let timestamp := fmtLocal nowLocal
    let updates' := dSet updates user_id ⟨standup_text, timestamp, user_name⟩
    return (⟨200, [("Content-Type", "application/json")],
      jsonDumps (.obj [("response_action", .str "update"),
        ("view", .obj [("type", .str "modal"),
          ("title", .obj [("type", .str "plain_text"), ("text", .str "Standup Submitted!")]),
          ("close", .obj [("type", .str "plain_text"), ("text", .str "Close")]),
          ("blocks", .arr [.obj [("type", .str "section"),
            ("text", .obj [("type", .str "mrkdwn"),
              ("text", .str (":white_check_mark: Got your update at *" ++ timestamp ++
                             "*\n\n> " ++ standup_text))])]])])])⟩,
      updates')
  else
    return (⟨200, [], ""⟩, updates)

/-- The `/interactive` Flask route: the `try` body with every exception
caught and turned into `500` with the generic error body. -/
def flaskInteractive (form : Dict) (updates : List (String × FlaskUpdate))
    (nowLocal : UTCTime) : Resp × List (String × FlaskUpdate) :=
  match flaskInteractiveTry form updates nowLocal with
  | .ok r => r
  | .error _ => (⟨500, [], "Error processing request"⟩, updates)

/-! ## `build/summary_lambda.py` — the digest formatter -/

/-- The grouping key `(it.get("user_id"), it.get("user_name"))`.  `user_id`
is the table's partition key so it is present on every item; `user_name` is
optional. -/
def entryKey (e : Entry) : String × Option String := (e.user_id, e.user_name)

/-- `defaultdict(list)` grouping: key order is first occurrence, appends
keep arrival order within a group. -/
def addToGroup (gs : List ((String × Option String) × List Entry)) (e : Entry) :
    List ((String × Option String) × List Entry) :=
  match gs with
  | [] => [(entryKey e, [e])]
  | (k, es) :: rest =>
    if k = entryKey e then (k, es ++ [e]) :: rest
    else (k, es) :: addToGroup rest e

/-- Group the fetched items by `(user_id, user_name)`. -/
def groupByKey (items : List Entry) : List ((String × Option String) × List Entry) :=
  items.foldl addToGroup []

/-- The group sort key `(uname or "", uid)` compared lexicographically —
the `sorted(..., key=lambda kv: (kv[0][1] or "", kv[0][0]))` order. -/
def keyLe (a b : String × Option String) : Bool :=
  if a.2.getD "" = b.2.getD "" then strLe a.1 b.1
  else strLe (a.2.getD "") (b.2.getD "")

/-- `keyLe` lifted to the grouped pairs for sorting. -/
def groupOrd (a b : (String × Option String) × List Entry) : Bool :=
  keyLe a.1 b.1

/-- `f"<@{uid}>" if uid else (uname or "Unknown user")`. -/
def displayName (k : String × Option String) : String :=
  if k.1 ≠ "" then "<@" ++ k.1 ++ ">" else pyOrS k.2 "Unknown user"

/-- A `section` block with `mrkdwn` text. -/
def sectionBlock (text : String) : Json :=
  .obj [("type", .str "section"),
        ("text", .obj [("type", .str "mrkdwn"), ("text", .str text)])]

/-- The rendered text of one user's section: display name header and one
bullet per message. -/
def userSection (g : (String × Option String) × List Entry) : Json :=
  sectionBlock ("*" ++ displayName g.1 ++ "*\n" ++
    String.intercalate "\n" (g.2.map fun r => "• " ++ r.message))

/-- `_format_blocks`: the "no submissions" notice for an empty window;
otherwise the day header, a divider, and one section per user group, each
group's rows sorted oldest-to-newest, groups sorted by `(uname or "", uid)`.
-/
def formatBlocks (day_label : String) (items : List Entry) : List Json :=
  if items = [] then
    [sectionBlock ("*Standups for " ++ day_label ++ "*\n_No submissions yesterday._")]
  else
    let by_user := (groupByKey items).map fun g => (g.1, stableSort tsAsc g.2)
    let sorted := stableSort groupOrd by_user
    sectionBlock ("*Standups for " ++ day_label ++ "*") ::
      Json.obj [("type", .str "divider")] ::
      sorted.map userSection

/-! ## Shared lemmas -/

theorem rewrap_id (v : Resp × Table × Effects) : rewrap v = v := rfl

/-- A computed signature is never the empty string. -/
theorem expectedSignature_ne_empty (secret ts body : String) :
    expectedSignature secret ts body ≠ "" := by
  intro h
  have h' := congrArg String.data h
  simp only [expectedSignature, String.data_append] at h'
  simp at h'

/-- Lookup misses when no key of the dict equals the name. -/
theorem dGet_eq_none_of_no_key (d : Dict) (name : String)
    (h : ∀ p ∈ d, p.1 ≠ name) : dGet d name = none := by
  unfold dGet
  rw [List.find?_eq_none.mpr]
  · rfl
  · intro p hp
    simpa using h p hp

/-- A header stored under neither the exact nor the lowercase name reads
as empty. -/
theorem hdrGet_eq_empty (headers : Dict) (name : String)
    (h₁ : dGet headers name = none) (h₂ : dGet headers (pyLower name) = none) :
    hdrGet headers name = "" := by
  simp [hdrGet, h₁, h₂, pyOrS]

/-- The verifier fails whenever the timestamp header is empty. -/
theorem verify_false_of_no_timestamp (secret : String) (now : Int)
    (headers : Dict) (body : String)
    (h : hdrGet headers "X-Slack-Request-Timestamp" = "") :
    verifySlackSignature secret now headers body = false := by
  unfold verifySlackSignature
  simp [h]

/-- The verifier fails whenever the signature header is empty. -/
theorem verify_false_of_no_signature (secret : String) (now : Int)
    (headers : Dict) (body : String)
    (h : hdrGet headers "X-Slack-Signature" = "") :
    verifySlackSignature secret now headers body = false := by
  unfold verifySlackSignature
  simp [h]

/-- All the refusal cases of the verifier: a missing header, an
unparseable timestamp, a stale timestamp, or a signature mismatch. -/
theorem verify_false_cases (secret : String) (now : Int) (headers : Dict)
    (body : String)
    (h : hdrGet headers "X-Slack-Request-Timestamp" = "" ∨
         hdrGet headers "X-Slack-Signature" = "" ∨
         pythonInt (hdrGet headers "X-Slack-Request-Timestamp") = none ∨
         (∃ t, pythonInt (hdrGet headers "X-Slack-Request-Timestamp") = some t ∧
           300 < (now - t).natAbs) ∨
         expectedSignature secret (hdrGet headers "X-Slack-Request-Timestamp") body ≠
           hdrGet headers "X-Slack-Signature") :
    verifySlackSignature secret now headers body = false := by
  unfold verifySlackSignature
  by_cases h0 : hdrGet headers "X-Slack-Request-Timestamp" = "" ∨
      hdrGet headers "X-Slack-Signature" = ""
  · simp [h0]
  · rcases h with h | h | h | ⟨t, ht, hstale⟩ | h
    · exact absurd (Or.inl h) h0
    · exact absurd (Or.inr h) h0
    · simp [h0, h]
    · simp [h0, ht, hstale]
    · cases hp : pythonInt (hdrGet headers "X-Slack-Request-Timestamp") with
      | none => simp [h0, hp]
      | some t =>
        by_cases hs : 300 < (now - t).natAbs
        · simp [h0, hp, hs]
        · simp [h0, hp, hs, beq_eq_false_iff_ne.mpr h]

/-! ## C1 -/

/-- C1: every inbound request whose transport decode succeeds but whose
verification fails — a missing timestamp or signature header, an
unparseable timestamp, a timestamp more than 300 seconds from the current
unix time (even with a correct HMAC), or a signature mismatch — is answered
with status 401 and the fixed body, with the store unchanged, zero store
writes and zero outbound chat calls; the response is produced without
consulting the parsed form. -/
theorem C1_unverified_request_rejected (secret : String) (nowUnix : Int)
    (now : UTCTime) (modal : ModalOutcome) (event : Event) (store : Table)
    (body : String) (hdec : decodeBody event = .ok body)
    (hfail :
      hdrGet (event.headers.getD []) "X-Slack-Request-Timestamp" = "" ∨
      hdrGet (event.headers.getD []) "X-Slack-Signature" = "" ∨
      pythonInt (hdrGet (event.headers.getD []) "X-Slack-Request-Timestamp") = none ∨
      (∃ t, pythonInt (hdrGet (event.headers.getD []) "X-Slack-Request-Timestamp") = some t ∧
        300 < (nowUnix - t).natAbs) ∨
      expectedSignature secret (hdrGet (event.headers.getD []) "X-Slack-Request-Timestamp") body ≠
        hdrGet (event.headers.getD []) "X-Slack-Signature") :
    handler secret nowUnix now modal event store =
      .ok (response 401 [] "bad signature", store, ⟨0, 0⟩) := by
  have hv := verify_false_cases secret nowUnix (event.headers.getD []) body hfail
  unfold handler
  rw [hdec]
  simp [hv]

/-- C1 witness: a concrete request with no headers at all is answered 401
with no effects. -/
theorem C1_witness :
    decodeBody ⟨some "text=hi", false, none, some "/standup", none⟩ = .ok "text=hi" ∧
    handler "secret" 0 ⟨2025, 8, 12, 0, 0, 0⟩ .timeout
        ⟨some "text=hi", false, none, some "/standup", none⟩ [] =
      .ok (response 401 [] "bad signature", [], ⟨0, 0⟩) :=
  ⟨rfl, C1_unverified_request_rejected "secret" 0 ⟨2025, 8, 12, 0, 0, 0⟩ .timeout
    ⟨some "text=hi", false, none, some "/standup", none⟩ [] "text=hi" rfl
    (Or.inl rfl)⟩

/-! ## C10 -/

/-- C10: the verifier's header lookup finds a header only under its exact
canonical name or its all-lowercase name — an exact-name hit wins, the
lowercase name is the only fallback — and a request whose timestamp or
signature header is stored under any other key (any other casing) treats
that header as missing and fails verification. -/
theorem C10_header_casing (headers : Dict) (secret : String) (now : Int)
    (body : String) :
    (∀ name v, dGet headers name = some v → v ≠ "" → hdrGet headers name = v) ∧
    (∀ name v, dGet headers name = none → dGet headers (pyLower name) = some v →
      v ≠ "" → hdrGet headers name = v) ∧
    ((∀ p ∈ headers, p.1 ≠ "X-Slack-Request-Timestamp" ∧
        p.1 ≠ "x-slack-request-timestamp") →
      hdrGet headers "X-Slack-Request-Timestamp" = "" ∧
      verifySlackSignature secret now headers body = false) ∧
    ((∀ p ∈ headers, p.1 ≠ "X-Slack-Signature" ∧ p.1 ≠ "x-slack-signature") →
      hdrGet headers "X-Slack-Signature" = "" ∧
      verifySlackSignature secret now headers body = false) := by
  refine ⟨?_, ?_, ?_, ?_⟩
  · intro name v hv hne
    simp [hdrGet, hv, pyOrS, hne]
  · intro name v hnone hv hne
    simp [hdrGet, hnone, hv, pyOrS, hne]
  · intro h
    have h₁ : dGet headers "X-Slack-Request-Timestamp" = none :=
      dGet_eq_none_of_no_key _ _ fun p hp => (h p hp).1
    have h₂ : dGet headers (pyLower "X-Slack-Request-Timestamp") = none := by
      have : pyLower "X-Slack-Request-Timestamp" = "x-slack-request-timestamp" := by decide
      rw [this]
      exact dGet_eq_none_of_no_key _ _ fun p hp => (h p hp).2
    have he := hdrGet_eq_empty headers _ h₁ h₂
    exact ⟨he, verify_false_of_no_timestamp _ _ _ _ he⟩
  · intro h
    have h₁ : dGet headers "X-Slack-Signature" = none :=
      dGet_eq_none_of_no_key _ _ fun p hp => (h p hp).1
    have h₂ : dGet headers (pyLower "X-Slack-Signature") = none := by
      have : pyLower "X-Slack-Signature" = "x-slack-signature" := by decide
      rw [this]
      exact dGet_eq_none_of_no_key _ _ fun p hp => (h p hp).2
    have he := hdrGet_eq_empty headers _ h₁ h₂
    exact ⟨he, verify_false_of_no_signature _ _ _ _ he⟩

/-- C10 witness: headers supplied in all-uppercase are treated as missing
and a concrete verification fails. -/
theorem C10_witness :
    (∀ p ∈ ([("X-SLACK-REQUEST-TIMESTAMP", "0"), ("X-SLACK-SIGNATURE", "v0=ab")] : Dict),
      p.1 ≠ "X-Slack-Request-Timestamp" ∧ p.1 ≠ "x-slack-request-timestamp") ∧
    (hdrGet [("X-SLACK-REQUEST-TIMESTAMP", "0"), ("X-SLACK-SIGNATURE", "v0=ab")]
        "X-Slack-Request-Timestamp" = "" ∧
      verifySlackSignature "secret" 0
        [("X-SLACK-REQUEST-TIMESTAMP", "0"), ("X-SLACK-SIGNATURE", "v0=ab")] "" = false) :=
  ⟨by decide,
   ((C10_header_casing [("X-SLACK-REQUEST-TIMESTAMP", "0"), ("X-SLACK-SIGNATURE", "v0=ab")]
      "secret" 0 "").2.2.1 (by decide))⟩

/-! ## C7 -/

/-- C7: a save-entry request with empty trimmed text whose dialog-open
call times out (the bounded ~1.5 s timeout), raises, or is refused by the
platform is still answered 200 with the fallback ephemeral text telling
the user to submit inline; the failure never becomes an error status, and
no store write happens. -/
theorem C7_modal_failure_fallback (form : Dict) (store : Table) (now : UTCTime)
    (modal : ModalOutcome)
    (htext : pyStrip (pyOrS (dGet form "text") "") = "")
    (hfail : modal = .timeout ∨ modal = .exception ∨
      (∀ j, modal = .api j → Json.truthy (j.get "ok") = false)) :
    handle_standup form store now modal =
      (⟨200, [("Content-Type", "application/json")],
        ephemeralBody "Couldn’t open the modal just now. Try again, or type `/standup your update`."⟩,
       store, ⟨0, 1⟩) := by
  have hok : Json.truthy ((open_modal modal ((dGet form "trigger_id").getD "")
      standupModalView).get "ok") = false := by
    rcases hfail with h | h | h
    · subst h; rfl
    · subst h; rfl
    · cases modal with
      | api j => exact h j rfl
      | timeout => rfl
      | exception => rfl
  unfold handle_standup
  rw [htext]
  simp [hok]

/-- C7 witness: with no text field and a timed-out dialog call, the
concrete response is the 200 fallback. -/
theorem C7_witness :
    pyStrip (pyOrS (dGet [("user_id", "U1")] "text") "") = "" ∧
    handle_standup [("user_id", "U1")] [] ⟨2025, 8, 12, 0, 0, 0⟩ .timeout =
      (⟨200, [("Content-Type", "application/json")],
        ephemeralBody "Couldn’t open the modal just now. Try again, or type `/standup your update`."⟩,
       [], ⟨0, 1⟩) :=
  ⟨rfl, C7_modal_failure_fallback [("user_id", "U1")] [] ⟨2025, 8, 12, 0, 0, 0⟩ .timeout
    rfl (Or.inl rfl)⟩

/-! ## C2 -/

theorem hexDigit_inj16 : ∀ n < 16, ∀ m < 16, hexDigit n = hexDigit m → n = m := by decide

theorem hexByte_inj {a b : Nat} (ha : a < 256) (hb : b < 256)
    (h : hexByte a = hexByte b) : a = b := by
  unfold hexByte at h
  injection h with h₁ h'
  injection h' with h₂ _
  have e₁ := hexDigit_inj16 (a / 16) (by omega) (b / 16) (by omega) h₁
  have e₂ := hexDigit_inj16 (a % 16) (by omega) (b % 16) (by omega) h₂
  omega

theorem hexFlat_inj : ∀ l₁ l₂ : List Nat, (∀ x ∈ l₁, x < 256) → (∀ x ∈ l₂, x < 256) →
    l₁.flatMap hexByte = l₂.flatMap hexByte → l₁ = l₂ := by
  intro l₁
  induction l₁ with
  | nil =>
    intro l₂ _ _ h
    cases l₂ with
    | nil => rfl
    | cons b l₂ => simp [hexByte] at h
  | cons a l₁ ih =>
    intro l₂ h₁ h₂ h
    cases l₂ with
    | nil => simp [hexByte] at h
    | cons b l₂ =>
      simp only [List.flatMap_cons] at h
      unfold hexByte at h
      simp only [List.cons_append, List.nil_append] at h
      injection h with e₁ h'
      injection h' with e₂ htail
      have hab : a = b := by
        have ha := h₁ a (by simp)
        have hb := h₂ b (by simp)
        have u₁ := hexDigit_inj16 (a / 16) (by omega) (b / 16) (by omega) e₁
        have u₂ := hexDigit_inj16 (a % 16) (by omega) (b % 16) (by omega) e₂
        omega
      rw [hab, ih l₂ (fun x hx => h₁ x (by simp [hx])) (fun x hx => h₂ x (by simp [hx])) htail]

/-- Every byte of a SHA-256 digest is below 256. -/
theorem sha256_bytes_lt (msg : List Nat) : ∀ x ∈ sha256 msg, x < 256 := by
  intro x hx
  unfold sha256 wordsToBytes at hx
  simp only [List.mem_flatMap] at hx
  obtain ⟨w, _, hx⟩ := hx
  simp only [List.mem_cons, List.not_mem_nil, or_false] at hx
  rcases hx with h | h | h | h <;> subst h <;> omega

/-- Hex rendering is injective on byte strings. -/
theorem hexOfBytes_inj {l₁ l₂ : List Nat} (h₁ : ∀ x ∈ l₁, x < 256)
    (h₂ : ∀ x ∈ l₂, x < 256) (h : hexOfBytes l₁ = hexOfBytes l₂) : l₁ = l₂ :=
  hexFlat_inj l₁ l₂ h₁ h₂ (congrArg String.data h)

/-- Different HMAC digests give different computed signatures. -/
theorem expectedSignature_ne_of_digest_ne {secret ts b b' : String}
    (h : hmacSha256 (utf8Bytes secret) (utf8Bytes ("v0:" ++ ts ++ ":" ++ b)) ≠
         hmacSha256 (utf8Bytes secret) (utf8Bytes ("v0:" ++ ts ++ ":" ++ b'))) :
    expectedSignature secret ts b ≠ expectedSignature secret ts b' := by
  intro he
  apply h
  unfold expectedSignature hmacSha256Hex at he
  have hd := congrArg String.data he
  simp only [String.data_append] at hd
  have hhex : hexOfBytes (hmacSha256 (utf8Bytes secret) (utf8Bytes ("v0:" ++ ts ++ ":" ++ b))) =
      hexOfBytes (hmacSha256 (utf8Bytes secret) (utf8Bytes ("v0:" ++ ts ++ ":" ++ b'))) := by
    apply String.ext
    simpa using hd
  exact hexOfBytes_inj (by unfold hmacSha256; exact sha256_bytes_lt _)
    (by unfold hmacSha256; exact sha256_bytes_lt _) hhex

/-- C2: the verifier's expected signature is exactly `"v0="` followed by
the lowercase hex digest of HMAC-SHA256 keyed by the secret over
`"v0:" + timestamp + ":" + raw_body`; and whenever the digest over a
second body differs from the digest over the delivered body, the two
computed signatures differ, so a request carrying the signature computed
over the other body fails verification. -/
theorem C2_signature_reference (secret timestamp raw_body : String) :
    expectedSignature secret timestamp raw_body =
      "v0=" ++ hexOfBytes (hmacSha256 (utf8Bytes secret)
        (utf8Bytes ("v0:" ++ timestamp ++ ":" ++ raw_body))) ∧
    ∀ raw_body',
      hmacSha256 (utf8Bytes secret) (utf8Bytes ("v0:" ++ timestamp ++ ":" ++ raw_body)) ≠
        hmacSha256 (utf8Bytes secret) (utf8Bytes ("v0:" ++ timestamp ++ ":" ++ raw_body')) →
      expectedSignature secret timestamp raw_body ≠
        expectedSignature secret timestamp raw_body' ∧
      ∀ (headers : Dict) (now : Int),
        hdrGet headers "X-Slack-Request-Timestamp" = timestamp →
        hdrGet headers "X-Slack-Signature" = expectedSignature secret timestamp raw_body' →
        verifySlackSignature secret now headers raw_body = false := by
  refine ⟨rfl, fun raw_body' hne => ?_⟩
  have hsig := expectedSignature_ne_of_digest_ne hne
  refine ⟨hsig, fun headers now hts hs => ?_⟩
  apply verify_false_cases
  right; right; right; right
  rw [hts, hs]
  exact hsig

set_option maxRecDepth 100000 in
/-- C2 witness: at a concrete secret and timestamp, changing one byte of
the body changes the digest, changes the computed signature, and makes
verification of the delivered body against the other body's signature
fail. -/
theorem C2_witness :
    (hmacSha256 (utf8Bytes "secret") (utf8Bytes "v0:0:text=hi") ≠
      hmacSha256 (utf8Bytes "secret") (utf8Bytes "v0:0:text=hj")) ∧
    expectedSignature "secret" "0" "text=hi" ≠ expectedSignature "secret" "0" "text=hj" ∧
    verifySlackSignature "secret" 0
      [("X-Slack-Request-Timestamp", "0"),
       ("X-Slack-Signature", expectedSignature "secret" "0" "text=hj")] "text=hi" = false :=
  have hne : hmacSha256 (utf8Bytes "secret") (utf8Bytes "v0:0:text=hi") ≠
      hmacSha256 (utf8Bytes "secret") (utf8Bytes "v0:0:text=hj") := by decide
  ⟨hne, ((C2_signature_reference "secret" "0" "text=hi").2 "text=hj" hne).1,
    ((C2_signature_reference "secret" "0" "text=hi").2 "text=hj" hne).2
      [("X-Slack-Request-Timestamp", "0"),
       ("X-Slack-Signature", expectedSignature "secret" "0" "text=hj")] 0 rfl rfl⟩

/-! ## Routing helpers -/

/-- A verified request reduces the handler to its routing block. -/
theorem handler_verified (secret : String) (nowUnix : Int) (now : UTCTime)
    (modal : ModalOutcome) (event : Event) (store : Table) (body : String)
    (hdec : decodeBody event = .ok body)
    (hver : verifySlackSignature secret nowUnix (event.headers.getD []) body = true) :
    handler secret nowUnix now modal event store =
      (if endsWithB (pyOrS event.rawPath (pyOrS event.path "/")) "/standup" then
        .ok (rewrap (handle_standup (parseForm body) store now modal))
      else if endsWithB (pyOrS event.rawPath (pyOrS event.path "/")) "/interactive" then
        rewrapE (handle_interactive (parseForm body) store now)
      else if dHas (parseForm body) "command" then
        .ok (rewrap (handle_standup (parseForm body) store now modal))
      else if dHas (parseForm body) "payload" then
        rewrapE (handle_interactive (parseForm body) store now)
      else .ok (response 404 [] "not found", store, ⟨0, 0⟩)) := by
  unfold handler
  rw [hdec]
  simp only [hver, if_true]

/-- The verifier accepts a request whose signature header carries the very
signature the verifier computes, when the timestamp is fresh. -/
theorem verify_self_signature (secret ts body : String) (now t : Int)
    (hts : ts ≠ "") (hpt : pythonInt ts = some t)
    (hfresh : ¬ 300 < (now - t).natAbs) :
    verifySlackSignature secret now
      [("X-Slack-Request-Timestamp", ts),
       ("X-Slack-Signature", expectedSignature secret ts body)] body = true := by
  have h₁ : hdrGet [("X-Slack-Request-Timestamp", ts),
      ("X-Slack-Signature", expectedSignature secret ts body)]
      "X-Slack-Request-Timestamp" = ts := by
    simp [hdrGet, dGet, pyOrS, hts]
  have h₂ : hdrGet [("X-Slack-Request-Timestamp", ts),
      ("X-Slack-Signature", expectedSignature secret ts body)]
      "X-Slack-Signature" = expectedSignature secret ts body := by
    simp [hdrGet, dGet, pyOrS, expectedSignature_ne_empty secret ts body]
  unfold verifySlackSignature
  rw [h₁, h₂]
  simp [hts, hpt, hfresh, expectedSignature_ne_empty secret ts body]

/-! ## C6 -/

/-- C6 counterexample: a verified request matching neither route, with a
form containing neither routing field, is answered 404 — but with the
body `"not found"`, not an empty body as the claim states. -/
theorem C6_counterexample :
    handler "secret" 0 ⟨2025, 8, 12, 0, 0, 0⟩ .timeout
      ⟨some "text=hi", false,
       some [("X-Slack-Request-Timestamp", "0"),
             ("X-Slack-Signature", expectedSignature "secret" "0" "text=hi")],
       none, none⟩ [] =
      .ok (response 404 [] "not found", [], ⟨0, 0⟩) ∧
    (response 404 [] "not found").body ≠ "" := by
  constructor
  · rw [handler_verified "secret" 0 ⟨2025, 8, 12, 0, 0, 0⟩ .timeout
      ⟨some "text=hi", false,
       some [("X-Slack-Request-Timestamp", "0"),
             ("X-Slack-Signature", expectedSignature "secret" "0" "text=hi")],
       none, none⟩ [] "text=hi" rfl
      (verify_self_signature "secret" "0" "text=hi" 0 0 (by decide) (by decide) (by decide))]
    have hform : parseForm "text=hi" = [("text", "hi")] := by decide
    have h₁ : endsWithB "/" "/standup" = false := by decide
    have h₂ : endsWithB "/" "/interactive" = false := by decide
    simp [pyOrS, hform, dHas, dGet, h₁, h₂]
  · simp [response]

/-- C6 as amended: a verified request whose path matches neither route and
whose form contains neither the command-trigger nor the payload field is
answered 404 with the body `"not found"` (non-empty), the store unchanged
and no effects. -/
theorem C6_not_found_route (secret : String) (nowUnix : Int) (now : UTCTime)
    (modal : ModalOutcome) (event : Event) (store : Table) (body : String)
    (hdec : decodeBody event = .ok body)
    (hver : verifySlackSignature secret nowUnix (event.headers.getD []) body = true)
    (hsp : endsWithB (pyOrS event.rawPath (pyOrS event.path "/")) "/standup" = false)
    (hip : endsWithB (pyOrS event.rawPath (pyOrS event.path "/")) "/interactive" = false)
    (hcmd : dHas (parseForm body) "command" = false)
    (hpay : dHas (parseForm body) "payload" = false) :
    handler secret nowUnix now modal event store =
      .ok (response 404 [] "not found", store, ⟨0, 0⟩) := by
  rw [handler_verified secret nowUnix now modal event store body hdec hver]
  simp [hsp, hip, hcmd, hpay]

/-- C6 witness for the amended claim: a concrete verified request at the
root path with a `text`-only form gets the 404 with body `"not found"`. -/
theorem C6_witness :
    dHas (parseForm "text=hi") "command" = false ∧
    handler "secret" 0 ⟨2025, 8, 12, 0, 0, 0⟩ .exception
      ⟨some "text=hi", false,
       some [("X-Slack-Request-Timestamp", "0"),
             ("X-Slack-Signature", expectedSignature "secret" "0" "text=hi")],
       some "/", none⟩ [⟨"U1", "t", "m", none⟩] =
      .ok (response 404 [] "not found", [⟨"U1", "t", "m", none⟩], ⟨0, 0⟩) :=
  ⟨by decide,
   C6_not_found_route "secret" 0 ⟨2025, 8, 12, 0, 0, 0⟩ .exception
     ⟨some "text=hi", false,
      some [("X-Slack-Request-Timestamp", "0"),
            ("X-Slack-Signature", expectedSignature "secret" "0" "text=hi")],
      some "/", none⟩ [⟨"U1", "t", "m", none⟩] "text=hi" rfl
     (verify_self_signature "secret" "0" "text=hi" 0 0 (by decide) (by decide) (by decide))
     (by decide) (by decide) (by decide) (by decide)⟩

/-! ## C5 -/

/-- C5 (evidence): on an interactive request whose payload field holds
malformed JSON, `core_slack.handle_interactive` raises
`json.JSONDecodeError` with no local handler, and the Lambda `handler` —
even for a fully verified request routed to the interactive path — lets
the exception escape as a crash instead of answering 500; only the Flask
prototype's route catches it and answers 500 with the generic body, which
is the behaviour the spec prescribes for the pipeline. -/
theorem C5_malformed_payload_crashes_lambda :
    handle_interactive [("payload", "\x7b")] [] ⟨2025, 8, 12, 0, 0, 0⟩ =
      .error "json.JSONDecodeError" ∧
    handler "secret" 0 ⟨2025, 8, 12, 0, 0, 0⟩ .timeout
        ⟨some "payload=\x7b", false,
         some [("X-Slack-Request-Timestamp", "0"),
               ("X-Slack-Signature", expectedSignature "secret" "0" "payload=\x7b")],
         some "/interactive", none⟩ [] =
      .error "json.JSONDecodeError" ∧
    flaskInteractive [("payload", "\x7b")] [] ⟨2025, 8, 12, 0, 0, 0⟩ =
      (⟨500, [], "Error processing request"⟩, []) := by
  refine ⟨rfl, ?_, rfl⟩
  rw [handler_verified "secret" 0 ⟨2025, 8, 12, 0, 0, 0⟩ .timeout
    ⟨some "payload=\x7b", false,
     some [("X-Slack-Request-Timestamp", "0"),
           ("X-Slack-Signature", expectedSignature "secret" "0" "payload=\x7b")],
     some "/interactive", none⟩ [] "payload=\x7b" rfl
    (verify_self_signature "secret" "0" "payload=\x7b" 0 0 (by decide) (by decide) (by decide))]
  have hpath : pyOrS (some "/interactive") (pyOrS none "/") = "/interactive" := by decide
  have hform : parseForm "payload=\x7b" = [("payload", "\x7b")] := by decide
  have h₁ : endsWithB "/interactive" "/standup" = false := by decide
  have h₂ : endsWithB "/interactive" "/interactive" = true := by decide
  rw [hpath, hform, h₁, h₂]
  rfl

/-! ## C8 -/

/-- The interactive handler acknowledges an absent payload with an empty
200 and no effects. -/
theorem hi_no_payload (form : Dict) (store : Table) (now : UTCTime)
    (h : dGet form "payload" = none) :
    handle_interactive form store now = .ok (⟨200, [], ""⟩, store, ⟨0, 0⟩) := by
  unfold handle_interactive
  simp [h]

/-- The interactive handler acknowledges a well-formed object payload of a
non-submission type with an empty 200 and no effects. -/
theorem hi_non_submission (form : Dict) (store : Table) (now : UTCTime)
    (s : String) (fields : List (String × Json))
    (hs : dGet form "payload" = some s)
    (hj : jsonLoads s = some (.obj fields))
    (ht : Json.isStr ((Json.obj fields).get "type") "view_submission" = false) :
    handle_interactive form store now = .ok (⟨200, [], ""⟩, store, ⟨0, 0⟩) := by
  have hne : s ≠ "" := by
    intro h
    subst h
    rw [show jsonLoads "" = none from rfl] at hj
    exact Option.noConfusion hj
  unfold handle_interactive
  simp [hs, hne, hj, ht]

/-- C8: in the interactive flow, an absent payload field and a well-formed
payload whose type is not a submission are both acknowledged with status
200 and an empty body, with no Record Store write — at the
`handle_interactive` level for any form, and end-to-end through the
verified handler on the interactive route. -/
theorem C8_interactive_benign_ack (secret : String) (nowUnix : Int)
    (now : UTCTime) (modal : ModalOutcome) (event : Event) (store : Table)
    (body : String) (hdec : decodeBody event = .ok body)
    (hver : verifySlackSignature secret nowUnix (event.headers.getD []) body = true)
    (hsp : endsWithB (pyOrS event.rawPath (pyOrS event.path "/")) "/standup" = false)
    (hip : endsWithB (pyOrS event.rawPath (pyOrS event.path "/")) "/interactive" = true) :
    (∀ (form : Dict) (store' : Table), dGet form "payload" = none →
      handle_interactive form store' now = .ok (⟨200, [], ""⟩, store', ⟨0, 0⟩)) ∧
    (∀ (form : Dict) (store' : Table) (s : String) (fields : List (String × Json)),
      dGet form "payload" = some s → jsonLoads s = some (.obj fields) →
      Json.isStr ((Json.obj fields).get "type") "view_submission" = false →
      handle_interactive form store' now = .ok (⟨200, [], ""⟩, store', ⟨0, 0⟩)) ∧
    (dGet (parseForm body) "payload" = none →
      handler secret nowUnix now modal event store = .ok (⟨200, [], ""⟩, store, ⟨0, 0⟩)) ∧
    (∀ (s : String) (fields : List (String × Json)),
      dGet (parseForm body) "payload" = some s →
      jsonLoads s = some (.obj fields) →
      Json.isStr ((Json.obj fields).get "type") "view_submission" = false →
      handler secret nowUnix now modal event store = .ok (⟨200, [], ""⟩, store, ⟨0, 0⟩)) := by
  refine ⟨fun form store' h => hi_no_payload form store' now h,
          fun form store' s fields hs hj ht => hi_non_submission form store' now s fields hs hj ht,
          ?_, ?_⟩
  · intro h
    rw [handler_verified secret nowUnix now modal event store body hdec hver]
    rw [hsp, hip]
    simp only [Bool.false_eq_true, if_false, if_true]
    rw [hi_no_payload (parseForm body) store now h]
    rfl
  · intro s fields hs hj ht
    rw [handler_verified secret nowUnix now modal event store body hdec hver]
    rw [hsp, hip]
    simp only [Bool.false_eq_true, if_false, if_true]
    rw [hi_non_submission (parseForm body) store now s fields hs hj ht]
    rfl

/-- C8 witness: a verified interactive request with a concrete
`block_actions` payload gets the empty 200 and no store write. -/
theorem C8_witness :
    dGet (parseForm "payload=\x7b\"type\":\"block_actions\"\x7d") "payload" =
      some "\x7b\"type\":\"block_actions\"\x7d" ∧
    handler "secret" 0 ⟨2025, 8, 12, 0, 0, 0⟩ .timeout
        ⟨some "payload=\x7b\"type\":\"block_actions\"\x7d", false,
         some [("X-Slack-Request-Timestamp", "0"),
               ("X-Slack-Signature",
                expectedSignature "secret" "0" "payload=\x7b\"type\":\"block_actions\"\x7d")],
         some "/interactive", none⟩ [⟨"U1", "t", "m", none⟩] =
      .ok (⟨200, [], ""⟩, [⟨"U1", "t", "m", none⟩], ⟨0, 0⟩) :=
  ⟨by decide,
   (C8_interactive_benign_ack "secret" 0 ⟨2025, 8, 12, 0, 0, 0⟩ .timeout
      ⟨some "payload=\x7b\"type\":\"block_actions\"\x7d", false,
       some [("X-Slack-Request-Timestamp", "0"),
             ("X-Slack-Signature",
              expectedSignature "secret" "0" "payload=\x7b\"type\":\"block_actions\"\x7d")],
       some "/interactive", none⟩ [⟨"U1", "t", "m", none⟩]
      "payload=\x7b\"type\":\"block_actions\"\x7d" rfl
      (verify_self_signature "secret" "0" "payload=\x7b\"type\":\"block_actions\"\x7d" 0 0
        (by decide) (by decide) (by decide))
      (by decide) (by decide)).2.2.2
     "\x7b\"type\":\"block_actions\"\x7d" [("type", .str "block_actions")]
     (by decide) rfl rfl⟩

/-! ## C9 -/

/-- Does the entry sit at the `(user_id, ts)` key? -/
def keyIs (uid ts : String) (e : Entry) : Bool := e.user_id == uid && e.ts == ts

/-- Store states reachable from the empty table through the repository's
save operation. -/
inductive Reachable : Table → Prop
  | empty : Reachable []
  | save (store : Table) (now : UTCTime) (uid msg : String) (un : Option String) :
      Reachable store → Reachable (save_standup store now uid msg un).2

theorem countP_putItem_same (t : Table) (e : Entry) (uid ts : String)
    (h : keyIs uid ts e = true) :
    (putItem t e).countP (keyIs uid ts) = 1 := by
  simp only [keyIs, Bool.and_eq_true, beq_iff_eq] at h
  obtain ⟨h₁, h₂⟩ := h
  subst h₁; subst h₂
  unfold putItem
  rw [List.countP_cons, List.countP_filter]
  have h0 : ∀ a ∈ t, ¬ ((fun a => keyIs e.user_id e.ts a &&
      decide (¬ (a.user_id = e.user_id ∧ a.ts = e.ts))) a = true) := by
    intro a _ hx
    simp only [keyIs, Bool.and_eq_true, beq_iff_eq, decide_eq_true_eq] at hx
    exact hx.2 ⟨hx.1.1, hx.1.2⟩
  rw [List.countP_eq_zero.mpr h0]
  simp [keyIs]

theorem countP_putItem_other (t : Table) (e : Entry) (uid ts : String)
    (h : keyIs uid ts e = false) :
    (putItem t e).countP (keyIs uid ts) ≤ t.countP (keyIs uid ts) := by
  unfold putItem
  rw [List.countP_cons, List.countP_filter, h]
  simp only [Bool.false_eq_true, if_false, Nat.add_zero]
  refine List.countP_mono_left fun x _ hx => ?_
  simp only [Bool.and_eq_true] at hx
  exact hx.1

/-- C9: two saves by the same user in the same second leave exactly one
entry at the `(user_id, timestamp)` key, carrying the second message —
the unconditional put replaces, last write wins — and every store state
reachable through saves has at most one entry per key. -/
theorem C9_put_key_unique :
    (∀ (store : Table) (now : UTCTime) (uid m₁ m₂ : String) (un₁ un₂ : Option String),
      ((save_standup (save_standup store now uid m₁ un₁).2 now uid m₂ un₂).2).countP
          (keyIs uid (nowIso now)) = 1 ∧
      ∀ e ∈ (save_standup (save_standup store now uid m₁ un₁).2 now uid m₂ un₂).2,
        keyIs uid (nowIso now) e = true → e.message = m₂) ∧
    (∀ store, Reachable store → ∀ uid ts, store.countP (keyIs uid ts) ≤ 1) := by
  constructor
  · intro store now uid m₁ m₂ un₁ un₂
    constructor
    · apply countP_putItem_same
      simp [keyIs]
    · intro e he hk
      simp only [save_standup, putItem, List.mem_cons, List.mem_filter] at he
      rcases he with he | ⟨_, hne⟩
      · rw [he]
      · exfalso
        simp only [keyIs, Bool.and_eq_true, beq_iff_eq] at hk
        simp [hk.1, hk.2] at hne
  · intro store h
    induction h with
    | empty => intro uid ts; simp
    | save store now uid' msg un _ ih =>
      intro uid ts
      simp only [save_standup]
      by_cases hk : keyIs uid ts ⟨uid', nowIso now, msg, un.filter (fun s => s ≠ "")⟩ = true
      · rw [countP_putItem_same _ _ _ _ hk]
      · exact le_trans
          (countP_putItem_other _ _ _ _ (Bool.eq_false_iff.mpr hk)) (ih uid ts)

/-- C9 witness: two concrete colliding saves leave one entry with the
later message, and a concrete reachable store respects the key bound. -/
theorem C9_witness :
    (((save_standup (save_standup [] ⟨2025, 8, 12, 0, 0, 0⟩ "U1" "first" none).2
        ⟨2025, 8, 12, 0, 0, 0⟩ "U1" "second" none).2).countP
        (keyIs "U1" (nowIso ⟨2025, 8, 12, 0, 0, 0⟩)) = 1 ∧
      ∀ e ∈ (save_standup (save_standup [] ⟨2025, 8, 12, 0, 0, 0⟩ "U1" "first" none).2
          ⟨2025, 8, 12, 0, 0, 0⟩ "U1" "second" none).2,
        keyIs "U1" (nowIso ⟨2025, 8, 12, 0, 0, 0⟩) e = true → e.message = "second") ∧
    ((save_standup [] ⟨2025, 8, 12, 0, 0, 0⟩ "U1" "first" none).2.countP
        (keyIs "U1" "2025-08-12T00:00:00Z") ≤ 1) :=
  ⟨C9_put_key_unique.1 [] ⟨2025, 8, 12, 0, 0, 0⟩ "U1" "first" "second" none none,
   C9_put_key_unique.2 _
     (Reachable.save [] ⟨2025, 8, 12, 0, 0, 0⟩ "U1" "first" none Reachable.empty)
     "U1" "2025-08-12T00:00:00Z"⟩

/-! ## C3 -/

theorem tsDesc_trans : ∀ a b c : Entry, tsDesc a b = true → tsDesc b c = true →
    tsDesc a c = true :=
  fun _ _ _ h₁ h₂ => strLe_trans h₂ h₁

theorem tsDesc_total_or : ∀ a b : Entry, (tsDesc a b || tsDesc b a) = true := by
  intro a b
  rcases strLe_total b.ts a.ts with h | h <;> simp [tsDesc, h]

theorem tsDesc_total_disj : ∀ a b : Entry, tsDesc a b = true ∨ tsDesc b a = true :=
  fun a b => strLe_total b.ts a.ts

/-- After the save, the user's newest-first query returns the new entry
first, followed by a prefix of the user's prior entries sorted newest
first — provided every prior entry is strictly older than the new
timestamp. -/
theorem latest_two_after_save (store : Table) (now : UTCTime)
    (uid text : String) (un : Option String)
    (hw : ∀ e ∈ store, e.user_id = uid → strLe (nowIso now) e.ts = false) :
    ∃ T : List Entry,
      get_latest_n (putItem store ⟨uid, nowIso now, text, un⟩) uid 2 =
        ⟨uid, nowIso now, text, un⟩ :: T.take 1 ∧
      T.Perm (store.filter fun x => x.user_id == uid) ∧
      T.Pairwise (fun a b => tsDesc a b = true) := by
  have hfilter : (putItem store ⟨uid, nowIso now, text, un⟩).filter
      (fun x => x.user_id == uid) =
      ⟨uid, nowIso now, text, un⟩ :: store.filter (fun x => x.user_id == uid) := by
    unfold putItem
    rw [List.filter_cons]
    simp only [beq_self_eq_true, if_pos]
    rw [List.filter_filter]
    congr 1
    apply List.filter_congr
    intro x hx
    by_cases hu : (x.user_id == uid) = true
    · have hts : x.ts ≠ nowIso now := by
        intro h
        have := hw x hx (by simpa using hu)
        rw [← h] at this
        rw [strLe_refl x.ts] at this
        exact Bool.noConfusion this
      simp [hu, hts]
    · simp [hu]
  have hmax : ∀ x ∈ store.filter (fun x => x.user_id == uid),
      tsDesc x ⟨uid, nowIso now, text, un⟩ = false := by
    intro x hx
    rw [List.mem_filter] at hx
    exact hw x hx.1 (by simpa using hx.2)
  obtain ⟨T, hT, hTperm⟩ := sorted_perm_cons_max tsDesc tsDesc_total_disj
    ⟨uid, nowIso now, text, un⟩ (store.filter fun x => x.user_id == uid)
    (stableSort tsDesc (⟨uid, nowIso now, text, un⟩ ::
      store.filter (fun x => x.user_id == uid)))
    (stableSort_perm _ _) (stableSort_pairwise _ tsDesc_trans tsDesc_total_disj _) hmax
  refine ⟨T, ?_, hTperm, ?_⟩
  · unfold get_latest_n
    rw [hfilter, hT]
    rfl
  · have := stableSort_pairwise tsDesc tsDesc_trans tsDesc_total_disj
      (⟨uid, nowIso now, text, un⟩ :: store.filter (fun x => x.user_id == uid))
    rw [hT] at this
    exact (List.pairwise_cons.mp this).2

/-- C3: a verified save-entry form with empty trimmed text performs no
store write and leaves the table unchanged; with non-empty trimmed text it
performs exactly one write — the new entry keyed by the formatted current
UTC instant — and responds 200 with an ephemeral acknowledgement whose
text embeds the new timestamp and, exactly when a prior entry exists for
the user, the newest prior entry's timestamp and message. -/
theorem C3_save_entry (form : Dict) (store : Table) (now : UTCTime)
    (modal : ModalOutcome) :
    (pyStrip (pyOrS (dGet form "text") "") = "" →
      (handle_standup form store now modal).2.1 = store ∧
      (handle_standup form store now modal).2.2.storeWrites = 0) ∧
    (∀ text, text = pyStrip (pyOrS (dGet form "text") "") → text ≠ "" →
      (∀ e ∈ store, e.user_id = (dGet form "user_id").getD "" →
        strLe (nowIso now) e.ts = false) →
      ∃ ack,
        handle_standup form store now modal =
          (⟨200, [("Content-Type", "application/json")], ephemeralBody ack⟩,
           putItem store ⟨(dGet form "user_id").getD "", nowIso now, text,
             (some ((dGet form "user_name").getD "")).filter (fun s => s ≠ "")⟩,
           ⟨1, 0⟩) ∧
        (∃ p q, ack = p ++ nowIso now ++ q) ∧
        ((store.filter fun x => x.user_id == (dGet form "user_id").getD "") = [] →
          ack = ":white_check_mark: Saved your update at *" ++ nowIso now ++
            "* (UTC)\n> " ++ text) ∧
        ((store.filter fun x => x.user_id == (dGet form "user_id").getD "") ≠ [] →
          ∃ prevE, prevE ∈ store ∧
            prevE.user_id = (dGet form "user_id").getD "" ∧
            (∀ x ∈ store, x.user_id = (dGet form "user_id").getD "" →
              strLe x.ts prevE.ts = true) ∧
            ack = ":white_check_mark: Saved your update at *" ++ nowIso now ++
              "* (UTC)\n> " ++ text ++ "\n\n*Previous:* _" ++ prevE.ts ++
              "_\n> " ++ prevE.message)) := by
  constructor
  · intro htext
    unfold handle_standup
    rw [htext]
    simp only [if_pos rfl]
    refine ⟨?_, ?_⟩ <;>
      by_cases h : Json.truthy ((open_modal modal ((dGet form "trigger_id").getD "")
        standupModalView).get "ok") = true <;>
      simp [h]
  · intro text htexteq htext hw
    obtain ⟨T, hlatest, hperm, hpair⟩ := latest_two_after_save store now
      ((dGet form "user_id").getD "") text
      ((some ((dGet form "user_name").getD "")).filter (fun s => s ≠ "")) hw
    have hbody : handle_standup form store now modal =
        (let latest_two := get_latest_n
            (putItem store ⟨(dGet form "user_id").getD "", nowIso now, text,
              (some ((dGet form "user_name").getD "")).filter (fun s => s ≠ "")⟩)
            ((dGet form "user_id").getD "") 2
         let prev := if latest_two.length = 2 then latest_two[1]? else none
         let ack := ":white_check_mark: Saved your update at *" ++ nowIso now ++
           "* (UTC)\n> " ++ text
         let ack := match prev with
           | some p => ack ++ "\n\n*Previous:* _" ++ p.ts ++ "_\n> " ++ p.message
           | none => ack
         (⟨200, [("Content-Type", "application/json")], ephemeralBody ack⟩,
          putItem store ⟨(dGet form "user_id").getD "", nowIso now, text,
            (some ((dGet form "user_name").getD "")).filter (fun s => s ≠ "")⟩,
          ⟨1, 0⟩)) := by
      unfold handle_standup
      rw [← htexteq, if_neg htext]
      simp only [save_standup]
    cases T with
    | nil =>
      have hpriors : (store.filter fun x =>
          x.user_id == (dGet form "user_id").getD "") = [] :=
        hperm.symm.eq_nil
      refine ⟨":white_check_mark: Saved your update at *" ++ nowIso now ++
        "* (UTC)\n> " ++ text, ?_, ?_, fun _ => rfl, fun hne => absurd hpriors hne⟩
      · rw [hbody]
        simp only [hlatest, List.take_nil]
        rfl
      · exact ⟨":white_check_mark: Saved your update at *",
          "* (UTC)\n> " ++ text, by simp [String.append_assoc]⟩
    | cons p T' =>
      have hpmem0 : p ∈ store.filter (fun x =>
          x.user_id == (dGet form "user_id").getD "") :=
        hperm.mem_iff.mp (by simp)
      have hpmem := List.mem_filter.mp hpmem0
      have hprevmax : ∀ x ∈ store, x.user_id = (dGet form "user_id").getD "" →
          strLe x.ts p.ts = true := by
        intro x hx hxu
        have hxp : x ∈ p :: T' := hperm.mem_iff.mpr
          (List.mem_filter.mpr ⟨hx, by simpa using hxu⟩)
        rcases List.mem_cons.mp hxp with rfl | hxT
        · exact strLe_refl x.ts
        · exact (List.pairwise_cons.mp hpair).1 x hxT
      refine ⟨":white_check_mark: Saved your update at *" ++ nowIso now ++
        "* (UTC)\n> " ++ text ++ "\n\n*Previous:* _" ++ p.ts ++ "_\n> " ++ p.message,
        ?_, ?_, fun hnil => absurd hpmem0 (by rw [hnil]; simp),
        fun _ => ⟨p, hpmem.1, by simpa using hpmem.2, hprevmax, rfl⟩⟩
      · rw [hbody]
        simp only [hlatest]
        rfl
      · exact ⟨":white_check_mark: Saved your update at *",
          "* (UTC)\n> " ++ text ++ "\n\n*Previous:* _" ++ p.ts ++ "_\n> " ++ p.message,
          by simp [String.append_assoc]⟩

/-- C3 witness: a concrete save over one older prior entry writes exactly
once at the current UTC instant and acknowledges with the new timestamp
and the prior entry embedded. -/
theorem C3_witness :
    (pyStrip (pyOrS (dGet ([("user_id", "U1"), ("user_name", "alice"),
        ("text", " hi ")] : Dict) "text") "") ≠ "") ∧
    (∀ e ∈ ([⟨"U1", "2025-08-11T00:00:00Z", "old", some "alice"⟩] : Table),
      e.user_id = (dGet ([("user_id", "U1"), ("user_name", "alice"),
        ("text", " hi ")] : Dict) "user_id").getD "" →
      strLe (nowIso ⟨2025, 8, 12, 22, 46, 13⟩) e.ts = false) ∧
    (∃ ack,
      handle_standup [("user_id", "U1"), ("user_name", "alice"), ("text", " hi ")]
          [⟨"U1", "2025-08-11T00:00:00Z", "old", some "alice"⟩]
          ⟨2025, 8, 12, 22, 46, 13⟩ .timeout =
        (⟨200, [("Content-Type", "application/json")], ephemeralBody ack⟩,
         putItem [⟨"U1", "2025-08-11T00:00:00Z", "old", some "alice"⟩]
           ⟨(dGet ([("user_id", "U1"), ("user_name", "alice"), ("text", " hi ")] : Dict)
               "user_id").getD "",
            nowIso ⟨2025, 8, 12, 22, 46, 13⟩,
            pyStrip (pyOrS (dGet ([("user_id", "U1"), ("user_name", "alice"),
              ("text", " hi ")] : Dict) "text") ""),
            (some ((dGet ([("user_id", "U1"), ("user_name", "alice"),
              ("text", " hi ")] : Dict) "user_name").getD "")).filter (fun s => s ≠ "")⟩,
         ⟨1, 0⟩) ∧
      (∃ p q, ack = p ++ nowIso ⟨2025, 8, 12, 22, 46, 13⟩ ++ q) ∧
      (([⟨"U1", "2025-08-11T00:00:00Z", "old", some "alice"⟩] : Table).filter
          (fun x => x.user_id == (dGet ([("user_id", "U1"), ("user_name", "alice"),
            ("text", " hi ")] : Dict) "user_id").getD "") = [] →
        ack = ":white_check_mark: Saved your update at *" ++
          nowIso ⟨2025, 8, 12, 22, 46, 13⟩ ++ "* (UTC)\n> " ++
          pyStrip (pyOrS (dGet ([("user_id", "U1"), ("user_name", "alice"),
            ("text", " hi ")] : Dict) "text") "")) ∧
      (([⟨"U1", "2025-08-11T00:00:00Z", "old", some "alice"⟩] : Table).filter
          (fun x => x.user_id == (dGet ([("user_id", "U1"), ("user_name", "alice"),
            ("text", " hi ")] : Dict) "user_id").getD "") ≠ [] →
        ∃ prevE, prevE ∈ ([⟨"U1", "2025-08-11T00:00:00Z", "old", some "alice"⟩] : Table) ∧
          prevE.user_id = (dGet ([("user_id", "U1"), ("user_name", "alice"),
            ("text", " hi ")] : Dict) "user_id").getD "" ∧
          (∀ x ∈ ([⟨"U1", "2025-08-11T00:00:00Z", "old", some "alice"⟩] : Table),
            x.user_id = (dGet ([("user_id", "U1"), ("user_name", "alice"),
              ("text", " hi ")] : Dict) "user_id").getD "" →
            strLe x.ts prevE.ts = true) ∧
          ack = ":white_check_mark: Saved your update at *" ++
            nowIso ⟨2025, 8, 12, 22, 46, 13⟩ ++ "* (UTC)\n> " ++
            pyStrip (pyOrS (dGet ([("user_id", "U1"), ("user_name", "alice"),
              ("text", " hi ")] : Dict) "text") "") ++
            "\n\n*Previous:* _" ++ prevE.ts ++ "_\n> " ++ prevE.message)) :=
  ⟨by decide, by decide,
   (C3_save_entry [("user_id", "U1"), ("user_name", "alice"), ("text", " hi ")]
      [⟨"U1", "2025-08-11T00:00:00Z", "old", some "alice"⟩]
      ⟨2025, 8, 12, 22, 46, 13⟩ .timeout).2
     (pyStrip (pyOrS (dGet ([("user_id", "U1"), ("user_name", "alice"),
       ("text", " hi ")] : Dict) "text") "")) rfl (by decide) (by decide)⟩

/-! ## C4 -/

theorem keyLe_trans : ∀ a b c : String × Option String,
    keyLe a b = true → keyLe b c = true → keyLe a c = true := by
  intro a b c h₁ h₂
  unfold keyLe at h₁ h₂ ⊢
  by_cases hab : a.2.getD "" = b.2.getD "" <;> by_cases hbc : b.2.getD "" = c.2.getD ""
  · rw [if_pos hab] at h₁
    rw [if_pos hbc] at h₂
    rw [if_pos (hab.trans hbc)]
    exact strLe_trans h₁ h₂
  · rw [if_pos hab] at h₁
    rw [if_neg hbc] at h₂
    rw [if_neg (fun h => hbc (hab ▸ h)), hab]
    exact h₂
  · rw [if_neg hab] at h₁
    rw [if_pos hbc] at h₂
    rw [if_neg (fun h => hab (h.trans hbc.symm)), ← hbc]
    exact h₁
  · rw [if_neg hab] at h₁
    rw [if_neg hbc] at h₂
    by_cases hac : a.2.getD "" = c.2.getD ""
    · exfalso
      rw [← hac] at h₂
      exact hab (strLe_antisymm h₁ h₂)
    · rw [if_neg hac]
      exact strLe_trans h₁ h₂

theorem keyLe_total : ∀ a b : String × Option String,
    keyLe a b = true ∨ keyLe b a = true := by
  intro a b
  unfold keyLe
  by_cases h : a.2.getD "" = b.2.getD ""
  · rw [if_pos h, if_pos h.symm]
    exact strLe_total _ _
  · rw [if_neg h, if_neg (Ne.symm h)]
    exact strLe_total _ _

theorem groupOrd_trans : ∀ a b c : (String × Option String) × List Entry,
    groupOrd a b = true → groupOrd b c = true → groupOrd a c = true :=
  fun a b c h₁ h₂ => keyLe_trans a.1 b.1 c.1 h₁ h₂

theorem groupOrd_total : ∀ a b : (String × Option String) × List Entry,
    groupOrd a b = true ∨ groupOrd b a = true :=
  fun a b => keyLe_total a.1 b.1

/-- Membership test for the grouping key. -/
def keyPred (k : String × Option String) : Entry → Bool :=
  fun e => decide (entryKey e = k)

/-- The invariant the `defaultdict` grouping maintains over the processed
prefix: each group holds exactly its key's entries in arrival order, keys
are unique, keys absent from the grouping have no entries, and no group is
empty. -/
def GroupInv (gs : List ((String × Option String) × List Entry))
    (pref : List Entry) : Prop :=
  (∀ g ∈ gs, g.2 = pref.filter (keyPred g.1)) ∧
  (gs.map Prod.fst).Nodup ∧
  (∀ k, k ∉ gs.map Prod.fst → pref.filter (keyPred k) = []) ∧
  (∀ g ∈ gs, g.2 ≠ [])

theorem addToGroup_keys (gs : List ((String × Option String) × List Entry))
    (e : Entry) :
    (addToGroup gs e).map Prod.fst =
      if entryKey e ∈ gs.map Prod.fst then gs.map Prod.fst
      else gs.map Prod.fst ++ [entryKey e] := by
  induction gs with
  | nil => simp [addToGroup]
  | cons g rest ih =>
    obtain ⟨k, es⟩ := g
    by_cases hk : k = entryKey e
    · subst hk
      simp [addToGroup]
    · rw [show addToGroup ((k, es) :: rest) e = (k, es) :: addToGroup rest e by
        simp [addToGroup, hk]]
      by_cases hmem : entryKey e ∈ rest.map Prod.fst
      · simp [ih, hmem, List.mem_cons]
      · have hnc : entryKey e ∉ (k, es).1 :: rest.map Prod.fst := by
          simp only [List.mem_cons]
          push_neg
          exact ⟨fun h => hk h.symm, hmem⟩
        simp only [List.map_cons] at hnc ⊢
        rw [ih]
        simp only [hmem, if_neg hnc]
        simp [hmem]

theorem addToGroup_contents :
    ∀ (gs : List ((String × Option String) × List Entry)) (pref : List Entry)
      (e : Entry),
    (∀ g ∈ gs, g.2 = pref.filter (keyPred g.1)) →
    (gs.map Prod.fst).Nodup →
    (entryKey e ∉ gs.map Prod.fst → pref.filter (keyPred (entryKey e)) = []) →
    ∀ g ∈ addToGroup gs e, g.2 = (pref ++ [e]).filter (keyPred g.1) := by
  intro gs
  induction gs with
  | nil =>
    intro pref e _ _ hnew g hg
    simp only [addToGroup, List.mem_singleton] at hg
    subst hg
    rw [List.filter_append, hnew (by simp)]
    simp [keyPred]
  | cons g₀ rest ih =>
    intro pref e hcont hnodup hnew g hg
    obtain ⟨k, es⟩ := g₀
    by_cases hk : k = entryKey e
    · rw [show addToGroup ((k, es) :: rest) e = (k, es ++ [e]) :: rest by
        simp [addToGroup, hk]] at hg
      rcases List.mem_cons.mp hg with rfl | hgr
      · rw [List.filter_append, ← hcont (k, es) (by simp)]
        simp [keyPred, hk]
      · rw [List.filter_append, ← hcont g (by simp [hgr])]
        have hne : entryKey e ≠ g.1 := by
          rw [← hk]
          intro h
          have : k ∈ rest.map Prod.fst := h ▸ List.mem_map_of_mem Prod.fst hgr
          exact (List.nodup_cons.mp (by simpa using hnodup)).1 this
        simp [keyPred, hne]
    · rw [show addToGroup ((k, es) :: rest) e = (k, es) :: addToGroup rest e by
        simp [addToGroup, hk]] at hg
      rcases List.mem_cons.mp hg with rfl | hgr
      · rw [List.filter_append, ← hcont (k, es) (by simp)]
        have hne : entryKey e ≠ (k, es).1 := fun h => hk h.symm
        simp [keyPred, hne]
      · exact ih pref e (fun g' hg' => hcont g' (by simp [hg']))
          (List.nodup_cons.mp (by simpa using hnodup)).2
          (fun hnm => hnew (by
            simp only [List.map_cons, List.mem_cons]
            push_neg
            exact ⟨fun h => hk h.symm, hnm⟩)) g hgr

theorem addToGroup_nonempty
    (gs : List ((String × Option String) × List Entry)) (e : Entry)
    (h : ∀ g ∈ gs, g.2 ≠ []) : ∀ g ∈ addToGroup gs e, g.2 ≠ [] := by
  induction gs with
  | nil =>
    intro g hg
    simp only [addToGroup, List.mem_singleton] at hg
    subst hg
    simp
  | cons g₀ rest ih =>
    intro g hg
    obtain ⟨k, es⟩ := g₀
    by_cases hk : k = entryKey e
    · rw [show addToGroup ((k, es) :: rest) e = (k, es ++ [e]) :: rest by
        simp [addToGroup, hk]] at hg
      rcases List.mem_cons.mp hg with rfl | hgr
      · simp
      · exact h g (by simp [hgr])
    · rw [show addToGroup ((k, es) :: rest) e = (k, es) :: addToGroup rest e by
        simp [addToGroup, hk]] at hg
      rcases List.mem_cons.mp hg with rfl | hgr
      · exact h (k, es) (by simp)
      · exact ih (fun g' hg' => h g' (by simp [hg'])) g hgr

theorem addToGroup_inv (gs : List ((String × Option String) × List Entry))
    (pref : List Entry) (e : Entry) (h : GroupInv gs pref) :
    GroupInv (addToGroup gs e) (pref ++ [e]) := by
  obtain ⟨hcont, hnodup, habs, hne⟩ := h
  refine ⟨addToGroup_contents gs pref e hcont hnodup (habs _), ?_, ?_, addToGroup_nonempty gs e hne⟩
  · rw [addToGroup_keys]
    split
    · exact hnodup
    · rename_i hnm
      rw [List.nodup_append]
      exact ⟨hnodup, List.nodup_singleton _, by simpa using hnm⟩
  · intro k hk
    rw [addToGroup_keys] at hk
    have hk₁ : k ∉ gs.map Prod.fst ∧ k ≠ entryKey e := by
      by_cases hmem : entryKey e ∈ gs.map Prod.fst
      · rw [if_pos hmem] at hk
        exact ⟨hk, fun h => hk (h ▸ hmem)⟩
      · rw [if_neg hmem] at hk
        simp only [List.mem_append, List.mem_singleton] at hk
        push_neg at hk
        exact hk
    rw [List.filter_append, habs k hk₁.1]
    have hne₂ : ¬ entryKey e = k := fun h => hk₁.2 h.symm
    simp [keyPred, hne₂]

theorem foldl_addToGroup_inv :
    ∀ (items : List Entry) (gs : List ((String × Option String) × List Entry))
      (pref : List Entry), GroupInv gs pref →
      GroupInv (items.foldl addToGroup gs) (pref ++ items) := by
  intro items
  induction items with
  | nil => intro gs pref h; simpa using h
  | cons x items ih =>
    intro gs pref h
    have := ih (addToGroup gs x) (pref ++ [x]) (addToGroup_inv gs pref x h)
    simpa using this

/-- The `defaultdict` grouping of the whole item list: each group is
exactly its key's items in arrival order, keys are unique and nonempty,
and keys are exactly the keys occurring in the items. -/
theorem groupByKey_inv (items : List Entry) : GroupInv (groupByKey items) items := by
  have h := foldl_addToGroup_inv items [] [] ⟨by simp, by simp, fun _ _ => rfl, by simp⟩
  simpa [groupByKey] using h

theorem tsAsc_trans : ∀ a b c : Entry, tsAsc a b = true → tsAsc b c = true →
    tsAsc a c = true :=
  fun _ _ _ h₁ h₂ => strLe_trans h₁ h₂

theorem tsAsc_total_disj : ∀ a b : Entry, tsAsc a b = true ∨ tsAsc b a = true :=
  fun a b => strLe_total a.ts b.ts

/-- C4: an empty fetch renders the single "no submissions" notice with the
day label and nothing else; a non-empty fetch renders the day header, a
divider, and exactly one section per `(user_id, user_name)` group — each
group holding precisely that user's fetched messages in ascending
timestamp order, rendered as bullets by `userSection` — with the groups
ordered by display name then user id and no key repeated. -/
theorem C4_digest_rendering (day : String) (items : List Entry) :
    (items = [] → formatBlocks day items =
      [sectionBlock ("*Standups for " ++ day ++ "*\n_No submissions yesterday._")]) ∧
    (items ≠ [] → ∃ groups : List ((String × Option String) × List Entry),
      formatBlocks day items =
        sectionBlock ("*Standups for " ++ day ++ "*") ::
          Json.obj [("type", Json.str "divider")] :: groups.map userSection ∧
      groups.Pairwise (fun g g' => keyLe g.1 g'.1 = true) ∧
      (groups.map Prod.fst).Nodup ∧
      (∀ g ∈ groups, g.2.Pairwise (fun a b => strLe a.ts b.ts = true) ∧
        g.2.Perm (items.filter (keyPred g.1)) ∧
        (∀ e ∈ g.2, entryKey e = g.1) ∧ g.2 ≠ []) ∧
      (∀ k, (∃ g ∈ groups, g.1 = k) ↔ ∃ e ∈ items, entryKey e = k)) := by
  obtain ⟨hcont, hnodup, habs, hne⟩ := groupByKey_inv items
  constructor
  · intro h
    unfold formatBlocks
    rw [if_pos h]
  · intro hitems
    refine ⟨stableSort groupOrd
      ((groupByKey items).map fun g => (g.1, stableSort tsAsc g.2)), ?_, ?_, ?_, ?_, ?_⟩
    · unfold formatBlocks
      rw [if_neg hitems]
    · exact stableSort_pairwise groupOrd groupOrd_trans groupOrd_total _
    · have hperm := stableSort_perm groupOrd
        ((groupByKey items).map fun g => (g.1, stableSort tsAsc g.2))
      have hmap : (((groupByKey items).map fun g =>
          ((g.1 : String × Option String), stableSort tsAsc g.2)).map Prod.fst) =
          (groupByKey items).map Prod.fst := by
        rw [List.map_map]
        rfl
      exact ((hperm.map Prod.fst).symm.nodup (hmap ▸ hnodup))
    · intro g hg
      have hgmem : g ∈ (groupByKey items).map fun g => (g.1, stableSort tsAsc g.2) :=
        (stableSort_perm groupOrd _).mem_iff.mp hg
      rw [List.mem_map] at hgmem
      obtain ⟨g₀, hg₀, rfl⟩ := hgmem
      have hcont₀ := hcont g₀ hg₀
      refine ⟨stableSort_pairwise tsAsc tsAsc_trans tsAsc_total_disj g₀.2, ?_, ?_, ?_⟩
      · show (stableSort tsAsc g₀.2).Perm (items.filter (keyPred g₀.1))
        refine (stableSort_perm tsAsc g₀.2).trans ?_
        rw [← hcont₀]
      · intro e he
        have he' : e ∈ stableSort tsAsc g₀.2 := he
        have hef : e ∈ items.filter (keyPred g₀.1) := by
          rw [← hcont₀]
          exact (stableSort_perm tsAsc g₀.2).mem_iff.mp he'
        exact of_decide_eq_true (List.mem_filter.mp hef).2
      · intro hnil
        have hnil' : stableSort tsAsc g₀.2 = [] := hnil
        have hlen := (stableSort_perm tsAsc g₀.2).length_eq
        rw [hnil'] at hlen
        exact hne g₀ hg₀ (List.eq_nil_of_length_eq_zero hlen.symm)
    · intro k
      constructor
      · rintro ⟨g, hg, rfl⟩
        have hgmem : g ∈ (groupByKey items).map fun g => (g.1, stableSort tsAsc g.2) :=
          (stableSort_perm groupOrd _).mem_iff.mp hg
        rw [List.mem_map] at hgmem
        obtain ⟨g₀, hg₀, rfl⟩ := hgmem
        obtain ⟨e, hemem⟩ := List.exists_mem_of_ne_nil g₀.2 (hne g₀ hg₀)
        rw [hcont g₀ hg₀] at hemem
        obtain ⟨hei, hek⟩ := List.mem_filter.mp hemem
        exact ⟨e, hei, of_decide_eq_true hek⟩
      · rintro ⟨e, he, rfl⟩
        by_contra hno
        push_neg at hno
        have hkeys : entryKey e ∉ (groupByKey items).map Prod.fst := by
          intro hmem
          rw [List.mem_map] at hmem
          obtain ⟨g₀, hg₀, hfst⟩ := hmem
          exact hno (g₀.1, stableSort tsAsc g₀.2)
            ((stableSort_perm groupOrd _).mem_iff.mpr (List.mem_map_of_mem _ hg₀)) hfst
        have habs' := habs (entryKey e) hkeys
        have hmem : e ∈ items.filter (keyPred (entryKey e)) :=
          List.mem_filter.mpr ⟨he, by simp [keyPred]⟩
        rw [habs'] at hmem
        exact absurd hmem (List.not_mem_nil e)

/-- C4 witness: for two users' entries interleaved in storage order, the
rendered digest is the header, divider, and one ordered section per user
with ascending rows. -/
theorem C4_witness :
    ([⟨"U2", "2025-08-12T03:00:00Z", "m3", some "bob"⟩,
      ⟨"U1", "2025-08-12T02:00:00Z", "m2", some "alice"⟩,
      ⟨"U1", "2025-08-12T01:00:00Z", "m1", some "alice"⟩] : List Entry) ≠ [] ∧
    (∃ groups : List ((String × Option String) × List Entry),
      formatBlocks "Tuesday, Aug 12"
          [⟨"U2", "2025-08-12T03:00:00Z", "m3", some "bob"⟩,
           ⟨"U1", "2025-08-12T02:00:00Z", "m2", some "alice"⟩,
           ⟨"U1", "2025-08-12T01:00:00Z", "m1", some "alice"⟩] =
        sectionBlock ("*Standups for " ++ "Tuesday, Aug 12" ++ "*") ::
          Json.obj [("type", Json.str "divider")] :: groups.map userSection ∧
      groups.Pairwise (fun g g' => keyLe g.1 g'.1 = true) ∧
      (groups.map Prod.fst).Nodup ∧
      (∀ g ∈ groups, g.2.Pairwise (fun a b => strLe a.ts b.ts = true) ∧
        g.2.Perm ([⟨"U2", "2025-08-12T03:00:00Z", "m3", some "bob"⟩,
           ⟨"U1", "2025-08-12T02:00:00Z", "m2", some "alice"⟩,
           ⟨"U1", "2025-08-12T01:00:00Z", "m1", some "alice"⟩].filter (keyPred g.1)) ∧
        (∀ e ∈ g.2, entryKey e = g.1) ∧ g.2 ≠ []) ∧
      (∀ k, (∃ g ∈ groups, g.1 = k) ↔
        ∃ e ∈ ([⟨"U2", "2025-08-12T03:00:00Z", "m3", some "bob"⟩,
           ⟨"U1", "2025-08-12T02:00:00Z", "m2", some "alice"⟩,
           ⟨"U1", "2025-08-12T01:00:00Z", "m1", some "alice"⟩] : List Entry),
          entryKey e = k)) :=
  ⟨by decide,
   (C4_digest_rendering "Tuesday, Aug 12"
      [⟨"U2", "2025-08-12T03:00:00Z", "m3", some "bob"⟩,
       ⟨"U1", "2025-08-12T02:00:00Z", "m2", some "alice"⟩,
       ⟨"U1", "2025-08-12T01:00:00Z", "m1", some "alice"⟩]).2 (by decide)⟩

end SlackBot

